import Mathlib

/-!
A shallow embedding of the update-queue core of the repository.

Sources embedded here:

* `ReactFiberClassUpdateQueue.new.js` (src/unnamed/part_000, first file):
  update records, the class update queue, `getStateFromUpdate`,
  `processUpdateQueue`, `commitUpdateQueue`, `enqueueUpdate`,
  `entangleTransitions`.
* `ReactFiberConcurrentUpdates.new.js` (src/unnamed/part_000, second file):
  the concurrent staging buffer, `finishQueueingConcurrentUpdates`,
  `markUpdateLaneFromFiberToRoot`, `getRootForUpdatedFiber`.

The lane bitset library (`ReactFiberLane.new.js`) is not among the sources;
per the spec (sections 1 and 6) it is consumed as an opaque ordered-set
abstraction with union, intersection, subset-test, removal and an empty set,
so lanes are modelled as finite sets of naturals.  JavaScript values that flow
through payloads and states are modelled by a small value type `JSVal`;
payload functions are modelled as Lean functions (they are pure per the spec,
which is also why the "update scheduled from inside a reducer" re-splice in
the processing loop, lines 734-750 of the source, can never fire in this
model and is noted where it would occur).
-/

/-- Lanes, modelled from the spec: the lane library is external and is used
only through `merge`, `intersect`, `isSubset`, `remove`, `empty` (spec §6). -/
abbrev Lanes : Type := Finset ℕ

/-- The empty lane set (`NoLanes`). -/
def NoLanes : Lanes := ∅

/-- The empty lane (`NoLane`); `0` in the bitmask implementation, the set
that is a subset of every lane set. -/
def NoLane : Lanes := ∅

/-- The dedicated offscreen lane (`OffscreenLane`), a fixed lane distinct
from the ordinary priority lanes used in the developments below. -/
def OffscreenLane : Lanes := {30}

/-- `mergeLanes(a, b)`: set union (bitmask `a | b`). -/
def mergeLanes (a b : Lanes) : Lanes := a ∪ b

/-- `removeLanes(set, subset)`: set difference (bitmask `set & ~subset`). -/
def removeLanes (s t : Lanes) : Lanes := s \ t

/-- `intersectLanes(a, b)`: set intersection (bitmask `a & b`). -/
def intersectLanes (a b : Lanes) : Lanes := a ∩ b

/-- `isSubsetOfLanes(set, subset)`: the subset test
(bitmask `(set & subset) === subset`). -/
def isSubsetOfLanes (s t : Lanes) : Bool := decide (t ⊆ s)

/-- Modelled from the spec: the transition lanes form a fixed block of lanes
inside the external lane library. -/
def TransitionLanes : Lanes := (Finset.range 16).image (fun i => i + 6)

/-- `isTransitionLane(lane)`: bitmask `(lane & TransitionLanes) !== NoLanes`. -/
def isTransitionLane (lane : Lanes) : Bool := decide (intersectLanes lane TransitionLanes ≠ NoLanes)

/-- Fiber flag bits (from the external `ReactFiberFlags`), modelled as a
finite set of distinct bit positions. -/
abbrev Flags : Type := Finset ℕ

/-- `NoFlags`. -/
def NoFlags : Flags := ∅

/-- The `Callback` flag bit. -/
def Callback : Flags := {2}

/-- The `Placement` flag bit. -/
def Placement : Flags := {1}

/-- The `Hydrating` flag bit. -/
def Hydrating : Flags := {12}

/-- The `DidCapture` flag bit. -/
def DidCapture : Flags := {7}

/-- The `ShouldCapture` flag bit. -/
def ShouldCapture : Flags := {13}

/-- A JavaScript value as it flows through update payloads and states:
`null`, `undefined`, strings, numbers, and plain objects (ordered field
lists). Functions are kept apart in `Payload` so the type stays inductive. -/
inductive JSVal : Type where
  | jnull : JSVal
  | jundef : JSVal
  | jstr : String → JSVal
  | jnum : Int → JSVal
  | jobj : List (String × JSVal) → JSVal

/-- `payload === null || payload === undefined` (the nullish test used by
`getStateFromUpdate`). -/
def isNullish : JSVal → Bool
  | .jnull => true
  | .jundef => true
  | _ => false

/-- The string content of a JS value (used only to build concrete example
payloads). -/
def strOf : JSVal → String
  | .jstr s => s
  | _ => ""

/-- An update payload: in the source `payload` is `any` and the code
branches on `typeof payload === 'function'`; a function payload receives
`(prevState, nextProps)` (the `instance` is only the `this` binding of the
call and is not modelled). -/
inductive Payload : Type where
  | val : JSVal → Payload
  | fn : (JSVal → JSVal → JSVal) → Payload

/-- The own enumerable fields an `Object.assign` source contributes;
modelled from the spec: "Assign merges payload (or payload-function result)
shallowly into previous state", so objects contribute their fields and other
values contribute none. -/
def ownFields : JSVal → List (String × JSVal)
  | .jobj fs => fs
  | _ => []

/-- Write one key into an ordered field list: overwrite in place if the key
exists, else append. -/
def setField (fs : List (String × JSVal)) (k : String) (v : JSVal) : List (String × JSVal) :=
  if fs.any (fun p => p.1 == k) then
    fs.map (fun p => if p.1 == k then (k, v) else p)
  else fs ++ [(k, v)]

/-- Copy all own fields of `source` onto `target`, in order. -/
def assignInto (target : List (String × JSVal)) (source : JSVal) : List (String × JSVal) :=
  (ownFields source).foldl (fun acc kv => setField acc kv.1 kv.2) target

/-- Modelled from the spec: `assign({}, prevState, partialState)`
(`shared/assign`, i.e. `Object.assign`, is not among the sources). -/
def assignObj (prevState partialSt : JSVal) : JSVal :=
  .jobj (assignInto (assignInto [] prevState) partialSt)

/-- `UpdateState` tag (0). -/
def UpdateState : ℕ := 0

/-- `ReplaceState` tag (1). -/
def ReplaceState : ℕ := 1

/-- `ForceUpdate` tag (2). -/
def ForceUpdate : ℕ := 2

/-- `CaptureUpdate` tag (3). -/
def CaptureUpdate : ℕ := 3

/-- An update record (`Update<State>`): event time, lane, tag, payload,
optional callback (callbacks are opaque and modelled by identifiers), and
the `next` link which is represented positionally by list membership in the
value-level queue model. -/
structure Update : Type where
  eventTime : ℕ
  lane : Lanes
  tag : ℕ
  payload : Payload
  callback : Option ℕ

/-- The class update queue (`UpdateQueue<State>`): `baseState`, the durable
base-update list `firstBaseUpdate .. lastBaseUpdate` (as a Lean list in link
order), the shared pending circular list (kept in insertion order: the code
stores a pointer to the last record of a circular list and cuts it back to
insertion order at the start of `processUpdateQueue`), the shared lane
accumulator, and the `effects` array (`null` is `none`). -/
structure UpdateQueue : Type where
  baseState : JSVal
  baseUpdates : List Update
  pending : List Update
  sharedLanes : Lanes
  effects : Option (List Update)

/-- The slice of a fiber that `processUpdateQueue` reads and writes:
its update queue, flags, lanes and memoized state. -/
structure FiberLike : Type where
  queue : UpdateQueue
  flags : Flags
  lanes : Lanes
  memoizedState : JSVal

/-- The outcome of one `getStateFromUpdate` call: the returned state plus
the two side effects of the source function — the mutation of
`workInProgress.flags` (the `CaptureUpdate` arm) and the module-global
`hasForceUpdate` (the `ForceUpdate` arm). -/
structure StepOutcome : Type where
  state : JSVal
  flags : Flags
  hasForceUpdate : Bool

/-- The `typeof payload === 'function' ? payload.call(instance, prevState,
nextProps) : payload` pattern shared by the `ReplaceState` and `UpdateState`
arms of `getStateFromUpdate`. -/
def payloadResult (payload : Payload) (prevState nextProps : JSVal) : JSVal :=
  match payload with
  | .fn f => f prevState nextProps
  | .val v => v

/-- `getStateFromUpdate(workInProgress, queue, update, prevState, nextProps,
instance)`: the switch on `update.tag`.  `ReplaceState` returns the payload
(or the payload function's result) outright; `CaptureUpdate` sets
`DidCapture` (clearing `ShouldCapture`) on the fiber and falls through into
`UpdateState`; `UpdateState` computes the partial state, treats
null/undefined as a no-op, and otherwise merges via
`assign({}, prevState, partialState)`; `ForceUpdate` raises the
`hasForceUpdate` flag and keeps the state.  The development-only strict-mode
double invocation of pure payload functions is observationally inert and is
not modelled. -/
def getStateFromUpdate (flags : Flags) (hasForceUpdate : Bool) (update : Update)
    (prevState nextProps : JSVal) : StepOutcome :=
  if update.tag = ReplaceState then
    ⟨payloadResult update.payload prevState nextProps, flags, hasForceUpdate⟩
  else if update.tag = CaptureUpdate ∨ update.tag = UpdateState then
    let flags1 : Flags :=
      if update.tag = CaptureUpdate then (flags \ ShouldCapture) ∪ DidCapture else flags
    let partialSt : JSVal := payloadResult update.payload prevState nextProps
    if isNullish partialSt then ⟨prevState, flags1, hasForceUpdate⟩
    else ⟨assignObj prevState partialSt, flags1, hasForceUpdate⟩
  else if update.tag = ForceUpdate then ⟨prevState, flags, true⟩
  else ⟨prevState, flags, hasForceUpdate⟩

/-- The mutable locals of the `do`-loop of `processUpdateQueue`
(lines 626-751): the accumulated state, the skipped-lane accumulator, the
new base state captured at the first skip, the reduced base-update list
being rebuilt (`newFirstBaseUpdate .. newLastBaseUpdate`), plus the fiber
flags, the `hasForceUpdate` global and the queue's `effects` array which the
loop also mutates. -/
structure LoopState : Type where
  newState : JSVal
  newLanes : Lanes
  newBaseState : Option JSVal
  newBaseUpdates : List Update
  flags : Flags
  hasForceUpdate : Bool
  effects : Option (List Update)

/-- Lines 647-653 of the loop: strip the offscreen bit to obtain
`updateLane`; a hidden update is gated on the work-in-progress root render
lanes, a normal one on `renderLanes`. -/
def shouldSkip (renderLanes wipRenderLanes : Lanes) (update : Update) : Bool :=
  let updateLane := removeLanes update.lane OffscreenLane
  let isHiddenUpdate : Bool := decide (updateLane ≠ update.lane)
  if isHiddenUpdate then ! isSubsetOfLanes wipRenderLanes updateLane
  else ! isSubsetOfLanes renderLanes updateLane

/-- The clone built for a skipped update (lines 658-667): tag, payload and
callback preserved, lane replaced by the offscreen-stripped `updateLane`,
`next` cleared. -/
def skippedClone (update : Update) : Update :=
  { eventTime := update.eventTime, lane := removeLanes update.lane OffscreenLane,
    tag := update.tag, payload := update.payload, callback := update.callback }

/-- The clone built for a qualifying update appended behind a skipped one
(lines 684-696): tag, payload and callback preserved, lane replaced by
`NoLane` so it can never be skipped again. -/
def committedClone (update : Update) : Update :=
  { eventTime := update.eventTime, lane := NoLane,
    tag := update.tag, payload := update.payload, callback := update.callback }

/-- One iteration of the `processUpdateQueue` loop on one update record
(lines 639-730).  A skipped update is cloned (keeping its offscreen-stripped
lane) onto the reduced list, snapshotting `newBaseState` at the first skip,
and its lane joins `newLanes`.  A qualifying update is cloned with `NoLane`
onto the reduced list when one is already being built, is applied through
`getStateFromUpdate`, and — when it has a callback and its lane is not
`NoLane` — sets the `Callback` flag and is pushed onto `effects`. -/
def processStep (renderLanes wipRenderLanes : Lanes) (props : JSVal)
    (s : LoopState) (update : Update) : LoopState :=
  if shouldSkip renderLanes wipRenderLanes update then
    let clone := skippedClone update
    if s.newBaseUpdates.isEmpty then
      { s with newBaseUpdates := [clone], newBaseState := some s.newState,
               newLanes := mergeLanes s.newLanes (removeLanes update.lane OffscreenLane) }
    else
      { s with newBaseUpdates := s.newBaseUpdates ++ [clone],
               newLanes := mergeLanes s.newLanes (removeLanes update.lane OffscreenLane) }
  else
    let s1 : LoopState :=
      if s.newBaseUpdates.isEmpty then s
      else { s with newBaseUpdates := s.newBaseUpdates ++ [committedClone update] }
    let r := getStateFromUpdate s1.flags s1.hasForceUpdate update s1.newState props
    let s2 : LoopState :=
      { s1 with newState := r.state, flags := r.flags, hasForceUpdate := r.hasForceUpdate }
    if update.callback ≠ none ∧ update.lane ≠ NoLane then
      { s2 with flags := s2.flags ∪ Callback,
                effects := some (s2.effects.getD [] ++ [update]) }
    else s2

/-- The post-loop computation of the queue's new `baseState`
(lines 753-759): if no update was skipped (`newLastBaseUpdate === null`)
the final computed state becomes the base state, otherwise the snapshot
taken at the first skip does; the trailing `.getD` is the source's
`((newBaseState: any): State)` cast, never exercised because the loop always
sets the snapshot together with the first reduced-list entry. -/
def finishedBaseState (s : LoopState) : JSVal :=
  (if s.newBaseUpdates.isEmpty then some s.newState else s.newBaseState).getD s.newState

/-- The result of `processUpdateQueue`: the updated fiber, the module-global
`hasForceUpdate`, and the lanes reported to `markSkippedUpdateLanes`
(`none` when the walk did not run). -/
structure ProcessResult : Type where
  fiber : FiberLike
  hasForceUpdate : Bool
  markedSkippedLanes : Option Lanes

/-- `processUpdateQueue(workInProgress, props, instance, renderLanes)`
(lines 555-782).  The circular pending list is cut and appended to the
durable base list (lines 578-599; in this model the pending list is already
held in insertion order, so this is a list append and the pending field is
cleared).  Lines 601-622 additionally append the same pending records to the
alternate fiber's queue through structural sharing; that mirror write does
not affect this fiber's result and is not modelled.  If the merged list is
non-empty the loop of `processStep` runs over it (payload functions are pure
in this model, so the re-splice of updates scheduled from inside a reducer,
lines 734-750, never fires) and the queue and fiber are updated from the
loop state.  Lines 763-766 (`if (firstBaseUpdate === null) queue.shared.lanes
= NoLanes`) sit inside the `firstBaseUpdate !== null` block and the local
`firstBaseUpdate` is not reassigned there, so that reset is unreachable and
`shared.lanes` is left unchanged. -/
def processUpdateQueue (workInProgress : FiberLike) (props : JSVal)
    (renderLanes wipRenderLanes : Lanes) : ProcessResult :=
  let queue := workInProgress.queue
  let firstBaseUpdate := queue.baseUpdates ++ queue.pending
  let queue1 : UpdateQueue := { queue with baseUpdates := firstBaseUpdate, pending := [] }
  if firstBaseUpdate.isEmpty then
    { fiber := { workInProgress with queue := queue1 },
      hasForceUpdate := false, markedSkippedLanes := none }
  else
    let init : LoopState :=
      { newState := queue1.baseState, newLanes := NoLanes, newBaseState := none,
        newBaseUpdates := [], flags := workInProgress.flags, hasForceUpdate := false,
        effects := queue1.effects }
    let fin := firstBaseUpdate.foldl (processStep renderLanes wipRenderLanes props) init
    let queue2 : UpdateQueue :=
      { queue1 with baseState := finishedBaseState fin,
                    baseUpdates := fin.newBaseUpdates,
                    effects := fin.effects }
    { fiber :=
        { workInProgress with
          queue := queue2, flags := fin.flags, lanes := fin.newLanes,
          memoizedState := fin.newState },
      hasForceUpdate := fin.hasForceUpdate,
      markedSkippedLanes := some fin.newLanes }

/-- The result of `commitUpdateQueue`: the queue with its `effects` field
cleared, the callback identifiers invoked via `callCallback` in order, and
the effect records after their `callback` field was nulled out before the
invocation. -/
structure CommitResult : Type where
  queue : UpdateQueue
  invoked : List ℕ
  records : List Update

/-- `commitUpdateQueue(finishedWork, finishedQueue, instance)`
(lines 802-820): clears `finishedQueue.effects`, then walks the effects
array in order; each effect with a non-null callback has the callback
reference cleared first and is then invoked through `callCallback`. -/
def commitUpdateQueue (finishedQueue : UpdateQueue) : CommitResult :=
  let effects := finishedQueue.effects
  let q : UpdateQueue := { finishedQueue with effects := none }
  match effects with
  | none => { queue := q, invoked := [], records := [] }
  | some effects =>
    let fold := effects.foldl
      (fun (acc : List Update × List ℕ) effect =>
        match effect.callback with
        | some callback => (acc.1 ++ [{ effect with callback := none }], acc.2 ++ [callback])
        | none => (acc.1 ++ [effect], acc.2))
      ([], [])
    { queue := q, invoked := fold.2, records := fold.1 }

/-- Spec-level pending/queue state view: the root fields read and written by
`entangleTransitions` and `markHiddenUpdate`; `hiddenUpdates` is the
per-lane side table of deferred hidden updates (pairs of lane and update
identifier, in arrival order). -/
structure RootModel : Type where
  pendingLanes : Lanes
  hiddenUpdates : List (Lanes × ℕ)

/-- Modelled from the spec: `markHiddenUpdate` lives in the external lane
module; per the spec the update "is additionally recorded in a per-lane side
table on the root keyed by priority". -/
def markHiddenUpdate (root : RootModel) (update : ℕ) (lane : Lanes) : RootModel :=
  { root with hiddenUpdates := root.hiddenUpdates ++ [(lane, update)] }

/-- `entangleTransitions(root, fiber, lane)` (lines 335-361), expressed on
the fiber's `updateQueue` (which is `none` exactly when the fiber has been
unmounted).  For a transition lane, the shared queue lanes are first pruned
to the root's still-pending lanes, the new lane is merged in, the result is
stored back and passed to the external `markRootEntangled`; the second
component of the result records the argument of that call (`none` when it
is not made). -/
def entangleTransitions (root : RootModel) (updateQueue : Option UpdateQueue) (lane : Lanes) :
    Option UpdateQueue × Option Lanes :=
  match updateQueue with
  | none => (none, none)
  | some sharedQueue =>
    if isTransitionLane lane then
      let queueLanes := intersectLanes sharedQueue.sharedLanes root.pendingLanes
      let newQueueLanes := mergeLanes queueLanes lane
      (some { sharedQueue with sharedLanes := newQueueLanes }, some newQueueLanes)
    else (some sharedQueue, none)

/-- The one-shot reference of the spec ("applying all updates in insertion
order to the base state in one step", spec §8 Determinism): a single fold of
the source reducer over the whole update list.  The flag and force-update
arguments fed to `getStateFromUpdate` do not influence the returned state
(proved below), so the reference fixes them at their neutral values. -/
def applyAllUpdates (props baseState : JSVal) (updates : List Update) : JSVal :=
  updates.foldl (fun s u => (getStateFromUpdate NoFlags false u s props).state) baseState

/-- Repeated processing: fold `processUpdateQueue` over a list of passes,
each pass supplying its render-lane window and the work-in-progress root
render lanes of that pass. -/
def runPasses (props : JSVal) (f : FiberLike) (passes : List (Lanes × Lanes)) : FiberLike :=
  passes.foldl (fun fb w => (processUpdateQueue fb props w.1 w.2).fiber) f

/-- The merge of the lanes of a list of update records. -/
def lanesOf (us : List Update) : Lanes :=
  us.foldl (fun acc u => mergeLanes acc u.lane) NoLanes

/-- Priority `P1` of the spec's skip-then-rebase example. -/
def P1 : Lanes := {1}

/-- Priority `P2` of the spec's skip-then-rebase example. -/
def P2 : Lanes := {2}

/-- An example update that appends one letter to a string state
(`ReplaceState` with a payload function `prev => prev ++ c`). -/
def appendUpd (c : String) (lane : Lanes) : Update :=
  { eventTime := 0, lane := lane, tag := ReplaceState,
    payload := .fn (fun prev _ => .jstr (strOf prev ++ c)), callback := none }

/-- `A@P1` of the skip-then-rebase example. -/
def updA : Update := appendUpd "A" P1

/-- `B@P2` of the skip-then-rebase example. -/
def updB : Update := appendUpd "B" P2

/-- `C@P1` of the skip-then-rebase example. -/
def updC : Update := appendUpd "C" P1

/-- `D@P2` of the skip-then-rebase example. -/
def updD : Update := appendUpd "D" P2

/-- The fiber of the skip-then-rebase example: base state `""`, durable list
`A@P1, B@P2, C@P1, D@P2`. -/
def skipRebaseFiber : FiberLike :=
  { queue := { baseState := .jstr "", baseUpdates := [updA, updB, updC, updD],
               pending := [], sharedLanes := NoLanes, effects := none },
    flags := NoFlags, lanes := NoLanes, memoizedState := .jstr "" }

/-- C2: starting from base state `""` with durable list `A@P1, B@P2, C@P1,
D@P2` (each update appends its letter), `processUpdateQueue` at window
`{P1}` produces state `"AC"`, leaves the queue's `baseState` equal to `"A"`
and its durable list equal to `[B@P2, C@NoLane, D@P2]`; a second
`processUpdateQueue` at window `{P1, P2}` then produces state `"ABCD"`. -/
theorem processUpdateQueue_skip_rebase_example :
    (processUpdateQueue skipRebaseFiber .jnull P1 NoLanes).fiber.memoizedState = .jstr "AC"
    ∧ (processUpdateQueue skipRebaseFiber .jnull P1 NoLanes).fiber.queue.baseState = .jstr "A"
    ∧ (processUpdateQueue skipRebaseFiber .jnull P1 NoLanes).fiber.queue.baseUpdates =
        [{ updB with lane := P2 }, { updC with lane := NoLane }, { updD with lane := P2 }]
    ∧ (processUpdateQueue (processUpdateQueue skipRebaseFiber .jnull P1 NoLanes).fiber
        .jnull (mergeLanes P1 P2) NoLanes).fiber.memoizedState = .jstr "ABCD" :=
  ⟨rfl, rfl, rfl, rfl⟩

/-- C10: an `UpdateState` update whose payload is null/undefined, or whose
payload function returns null/undefined, leaves the previous state untouched:
`getStateFromUpdate` returns the previous state itself, with no copy and no
merge. -/
theorem getStateFromUpdate_nullish_noop (flags : Flags) (hasFU : Bool) (u : Update)
    (prevState nextProps : JSVal)
    (htag : u.tag = UpdateState)
    (hnull : isNullish (payloadResult u.payload prevState nextProps) = true) :
    (getStateFromUpdate flags hasFU u prevState nextProps).state = prevState := by
  unfold getStateFromUpdate
  rw [htag]
  simp [UpdateState, ReplaceState, CaptureUpdate, hnull]

/-- Witness for C10: a concrete `UpdateState` update with a `null` payload
applied to the state `"x"` returns `"x"` itself. -/
theorem getStateFromUpdate_nullish_noop_witness :
    (({ eventTime := 0, lane := P1, tag := UpdateState, payload := .val .jnull,
        callback := none } : Update).tag = UpdateState)
    ∧ isNullish (payloadResult (.val .jnull) (.jstr "x") .jundef) = true
    ∧ (getStateFromUpdate NoFlags false
        { eventTime := 0, lane := P1, tag := UpdateState, payload := .val .jnull,
          callback := none } (.jstr "x") .jundef).state = .jstr "x" :=
  ⟨rfl, rfl,
    getStateFromUpdate_nullish_noop NoFlags false
      { eventTime := 0, lane := P1, tag := UpdateState, payload := .val .jnull,
        callback := none } (.jstr "x") .jundef rfl rfl⟩

/-- C7: for a transition lane, `entangleTransitions` replaces the shared
queue lanes by `merge(intersect(oldSharedLanes, root.pendingLanes), lane)`
and calls `markRootEntangled` with exactly that set, so a previously
entangled lane that is no longer pending on the root is pruned and cannot be
resurrected by entangling another lane; for a non-transition lane the call
changes nothing. -/
theorem entangleTransitions_prunes (root : RootModel) (sharedQueue : UpdateQueue)
    (lane : Lanes) :
    (isTransitionLane lane = true →
      entangleTransitions root (some sharedQueue) lane =
        (some { sharedQueue with
                sharedLanes := mergeLanes (intersectLanes sharedQueue.sharedLanes root.pendingLanes) lane },
         some (mergeLanes (intersectLanes sharedQueue.sharedLanes root.pendingLanes) lane))
      ∧ ∀ x ∈ sharedQueue.sharedLanes, x ∉ root.pendingLanes → x ∉ lane →
          x ∉ mergeLanes (intersectLanes sharedQueue.sharedLanes root.pendingLanes) lane)
    ∧ (isTransitionLane lane = false →
        entangleTransitions root (some sharedQueue) lane = (some sharedQueue, none)) := by
  constructor
  · intro ht
    refine ⟨by simp [entangleTransitions, ht], ?_⟩
    intro x _ hpend hlane
    simp only [mergeLanes, intersectLanes, Finset.mem_union, Finset.mem_inter, not_or]
    exact ⟨fun hc => hpend hc.2, hlane⟩
  · intro ht
    simp [entangleTransitions, ht]

/-- Witness for C7: with shared lanes `{7, 1}`, root pending lanes `{1, 6}`
and the transition lane `{6}`, the lane `7` (no longer pending) is pruned
and `markRootEntangled` receives exactly `{1, 6}`. -/
theorem entangleTransitions_prunes_witness :
    (entangleTransitions ⟨{1, 6}, []⟩ (some ⟨.jnull, [], [], {7, 1}, none⟩) {6}).2
      = some {1, 6} := by
  have h := (entangleTransitions_prunes ⟨{1, 6}, []⟩ ⟨.jnull, [], [], {7, 1}, none⟩
    {6}).1 (by decide)
  rw [h.1]
  decide

/-- The `commitUpdateQueue` effects walk, fully characterized: starting from
any accumulator it appends the records with their callbacks cleared and the
callbacks that were invoked, in order. -/
theorem commitFoldSpec (es : List Update) (acc : List Update × List ℕ) :
    es.foldl
      (fun (acc : List Update × List ℕ) effect =>
        match effect.callback with
        | some callback => (acc.1 ++ [{ effect with callback := none }], acc.2 ++ [callback])
        | none => (acc.1 ++ [effect], acc.2)) acc
    = (acc.1 ++ es.map (fun e => { e with callback := none }),
       acc.2 ++ es.filterMap Update.callback) := by
  induction es generalizing acc with
  | nil => simp
  | cons e es ih =>
    rcases e with ⟨et, lane, tag, payload, cb⟩
    cases cb with
    | none => simp [List.foldl_cons, ih, List.filterMap_cons]
    | some c => simp [List.foldl_cons, ih, List.filterMap_cons]

/-- `commitUpdateQueue` output characterization: invoked callbacks are the
non-null callbacks of the effects array in insertion order, the records come
back with their callback reference cleared, and the effects field is
cleared. -/
theorem commitUpdateQueue_spec (q : UpdateQueue) :
    (commitUpdateQueue q).invoked = (q.effects.getD []).filterMap Update.callback
    ∧ (commitUpdateQueue q).records = (q.effects.getD []).map (fun e => { e with callback := none })
    ∧ (commitUpdateQueue q).queue.effects = none := by
  cases he : q.effects with
  | none => simp [commitUpdateQueue, he]
  | some es => simp [commitUpdateQueue, he, commitFoldSpec]

/-- A record without a callback is never pushed onto `effects` by the
processing loop. -/
theorem processStep_effects_none (renderLanes wipRenderLanes : Lanes) (props : JSVal)
    (s : LoopState) (u : Update)
    (hcb : u.callback = none) (he : s.effects = none) :
    (processStep renderLanes wipRenderLanes props s u).effects = none := by
  simp only [processStep]
  split_ifs <;> simp_all

/-- Folding the processing loop over records without callbacks leaves an
empty effects accumulator empty. -/
theorem processFold_effects_none (renderLanes wipRenderLanes : Lanes) (props : JSVal)
    (us : List Update) (s : LoopState)
    (hcb : ∀ u ∈ us, u.callback = none) (he : s.effects = none) :
    (us.foldl (processStep renderLanes wipRenderLanes props) s).effects = none := by
  induction us generalizing s with
  | nil => simpa
  | cons u us ih =>
    simp only [List.foldl_cons]
    exact ih _ (fun v hv => hcb v (by simp [hv]))
      (processStep_effects_none _ _ _ _ _ (hcb u (by simp)) he)

/-- `processUpdateQueue` on a fiber whose walked records all lack callbacks
and whose effects array is null keeps the effects array null. -/
theorem processUpdateQueue_effects_none (f : FiberLike) (props : JSVal)
    (renderLanes wipRenderLanes : Lanes)
    (hcb : ∀ u ∈ f.queue.baseUpdates ++ f.queue.pending, u.callback = none)
    (he : f.queue.effects = none) :
    (processUpdateQueue f props renderLanes wipRenderLanes).fiber.queue.effects = none := by
  simp only [processUpdateQueue]
  split_ifs with h
  · simpa
  · exact processFold_effects_none _ _ _ _ _ hcb he

/-- C6: `commitUpdateQueue` drains the effects array in insertion order,
clears each effect's callback reference before invoking it, and clears the
effects field; consequently, when those same (now cleared) record objects
are walked again by a later `processUpdateQueue` pass, no effect is queued
and a subsequent commit invokes nothing. -/
theorem commitUpdateQueue_effect_once (q : UpdateQueue) (g0 : FiberLike)
    (props : JSVal) (renderLanes wipRenderLanes : Lanes) :
    (commitUpdateQueue q).invoked = (q.effects.getD []).filterMap Update.callback
    ∧ (∀ r ∈ (commitUpdateQueue q).records, r.callback = none)
    ∧ (commitUpdateQueue q).queue.effects = none
    ∧ (commitUpdateQueue (processUpdateQueue
        { g0 with
          queue := { g0.queue with
                     baseUpdates := (commitUpdateQueue q).records, pending := [],
                     effects := (commitUpdateQueue q).queue.effects } }
        props renderLanes wipRenderLanes).fiber.queue).invoked = [] := by
  obtain ⟨h1, h2, h3⟩ := commitUpdateQueue_spec q
  have hrec : ∀ r ∈ (commitUpdateQueue q).records, r.callback = none := by
    intro r hr
    rw [h2] at hr
    obtain ⟨e, _, rfl⟩ := List.mem_map.mp hr
    rfl
  refine ⟨h1, hrec, h3, ?_⟩
  have hq : (processUpdateQueue
      { g0 with
        queue := { g0.queue with
                   baseUpdates := (commitUpdateQueue q).records, pending := [],
                   effects := (commitUpdateQueue q).queue.effects } }
      props renderLanes wipRenderLanes).fiber.queue.effects = none := by
    apply processUpdateQueue_effects_none
    · intro u hu
      simp only [List.append_nil] at hu
      exact hrec u hu
    · simpa using h3
  rw [(commitUpdateQueue_spec _).1, hq]
  rfl

/-- A probe update at lane `{1}` used by the shared-lanes counterexample. -/
def lanesProbeUpdate : Update :=
  { eventTime := 0, lane := {1}, tag := UpdateState, payload := .val (.jnum 1),
    callback := none }

/-- A fiber whose queue carries the stale shared lane set `{5}` and a single
pending probe update at lane `{1}`. -/
def lanesProbeFiber : FiberLike :=
  { queue := { baseState := .jstr "", baseUpdates := [], pending := [lanesProbeUpdate],
               sharedLanes := {5}, effects := none },
    flags := NoFlags, lanes := NoLanes, memoizedState := .jstr "" }

/-- Counterexample to C3: processing the probe fiber at window `{1}` empties
the durable list, yet `shared.lanes` stays `{5}` instead of being reset to
the empty set (the reset at source lines 763-766 is guarded by
`firstBaseUpdate === null` inside the `firstBaseUpdate !== null` block and
can never run), so the queue's aggregate priority set does not equal the
merge of the remaining records' lanes. -/
theorem processUpdateQueue_shared_lanes_counterexample :
    (processUpdateQueue lanesProbeFiber .jnull {1} NoLanes).fiber.queue.baseUpdates = []
    ∧ (processUpdateQueue lanesProbeFiber .jnull {1} NoLanes).fiber.queue.sharedLanes
        ≠ lanesOf (processUpdateQueue lanesProbeFiber .jnull {1} NoLanes).fiber.queue.baseUpdates
    ∧ (processUpdateQueue lanesProbeFiber .jnull {1} NoLanes).fiber.queue.sharedLanes
        ≠ NoLanes :=
  ⟨rfl, by decide, by decide⟩

/-- `lanesOf` over a one-element extension. -/
theorem lanesOf_append (l : List Update) (c : Update) :
    lanesOf (l ++ [c]) = mergeLanes (lanesOf l) c.lane := by
  simp [lanesOf, List.foldl_append]

/-- A lane set that fails a subset test is non-empty. -/
theorem not_subset_nonempty {big t : Lanes} (h : isSubsetOfLanes big t = false) :
    t ≠ NoLanes := by
  intro h0
  rw [h0] at h
  simp only [isSubsetOfLanes, decide_eq_false_iff_not] at h
  exact h (Finset.empty_subset big)


/-- Shape of one loop iteration when the update is skipped. -/
theorem processStep_skip (renderLanes wipRenderLanes : Lanes) (props : JSVal)
    (s : LoopState) (u : Update)
    (hs : shouldSkip renderLanes wipRenderLanes u = true) :
    processStep renderLanes wipRenderLanes props s u =
      if s.newBaseUpdates.isEmpty then
        { s with newBaseUpdates := [skippedClone u], newBaseState := some s.newState,
                 newLanes := mergeLanes s.newLanes (removeLanes u.lane OffscreenLane) }
      else
        { s with newBaseUpdates := s.newBaseUpdates ++ [skippedClone u],
                 newLanes := mergeLanes s.newLanes (removeLanes u.lane OffscreenLane) } := by
  simp only [processStep, hs, if_true]

/-- Shape of one loop iteration when the update qualifies. -/
theorem processStep_qualify (renderLanes wipRenderLanes : Lanes) (props : JSVal)
    (s : LoopState) (u : Update)
    (hs : shouldSkip renderLanes wipRenderLanes u = false) :
    processStep renderLanes wipRenderLanes props s u =
      (if u.callback ≠ none ∧ u.lane ≠ NoLane then
        { s with newState := (getStateFromUpdate s.flags s.hasForceUpdate u s.newState props).state,
                 newBaseUpdates :=
                   if s.newBaseUpdates.isEmpty then s.newBaseUpdates
                   else s.newBaseUpdates ++ [committedClone u],
                 flags := (getStateFromUpdate s.flags s.hasForceUpdate u s.newState props).flags ∪ Callback,
                 hasForceUpdate := (getStateFromUpdate s.flags s.hasForceUpdate u s.newState props).hasForceUpdate,
                 effects := some (s.effects.getD [] ++ [u]) }
      else
        { s with newState := (getStateFromUpdate s.flags s.hasForceUpdate u s.newState props).state,
                 newBaseUpdates :=
                   if s.newBaseUpdates.isEmpty then s.newBaseUpdates
                   else s.newBaseUpdates ++ [committedClone u],
                 flags := (getStateFromUpdate s.flags s.hasForceUpdate u s.newState props).flags,
                 hasForceUpdate := (getStateFromUpdate s.flags s.hasForceUpdate u s.newState props).hasForceUpdate }) := by
  simp only [processStep, hs, Bool.false_eq_true, if_false]
  by_cases hemp : s.newBaseUpdates.isEmpty <;>
    by_cases hcb : u.callback ≠ none ∧ u.lane ≠ NoLane <;>
      simp [hemp, hcb]

/-- A skipped update's offscreen-stripped lane is never the empty lane (the
empty lane is a subset of every window). -/
theorem shouldSkip_lane_ne (renderLanes wipRenderLanes : Lanes) (u : Update)
    (h : shouldSkip renderLanes wipRenderLanes u = true) :
    removeLanes u.lane OffscreenLane ≠ NoLanes := by
  simp only [shouldSkip] at h
  split_ifs at h <;>
    exact not_subset_nonempty (by simpa using h)

/-- The non-empty-list branch of `processUpdateQueue`, written as one
equation over the loop fold. -/
theorem processUpdateQueue_walk (f : FiberLike) (props : JSVal)
    (renderLanes wipRenderLanes : Lanes)
    (h : (f.queue.baseUpdates ++ f.queue.pending).isEmpty = false) :
    processUpdateQueue f props renderLanes wipRenderLanes =
      { fiber :=
          { queue :=
              { baseState := finishedBaseState ((f.queue.baseUpdates ++ f.queue.pending).foldl
                  (processStep renderLanes wipRenderLanes props)
                  { newState := f.queue.baseState, newLanes := NoLanes, newBaseState := none,
                    newBaseUpdates := [], flags := f.flags, hasForceUpdate := false,
                    effects := f.queue.effects }),
                baseUpdates := ((f.queue.baseUpdates ++ f.queue.pending).foldl
                  (processStep renderLanes wipRenderLanes props)
                  { newState := f.queue.baseState, newLanes := NoLanes, newBaseState := none,
                    newBaseUpdates := [], flags := f.flags, hasForceUpdate := false,
                    effects := f.queue.effects }).newBaseUpdates,
                pending := [],
                sharedLanes := f.queue.sharedLanes,
                effects := ((f.queue.baseUpdates ++ f.queue.pending).foldl
                  (processStep renderLanes wipRenderLanes props)
                  { newState := f.queue.baseState, newLanes := NoLanes, newBaseState := none,
                    newBaseUpdates := [], flags := f.flags, hasForceUpdate := false,
                    effects := f.queue.effects }).effects },
            flags := ((f.queue.baseUpdates ++ f.queue.pending).foldl
                  (processStep renderLanes wipRenderLanes props)
                  { newState := f.queue.baseState, newLanes := NoLanes, newBaseState := none,
                    newBaseUpdates := [], flags := f.flags, hasForceUpdate := false,
                    effects := f.queue.effects }).flags,
            lanes := ((f.queue.baseUpdates ++ f.queue.pending).foldl
                  (processStep renderLanes wipRenderLanes props)
                  { newState := f.queue.baseState, newLanes := NoLanes, newBaseState := none,
                    newBaseUpdates := [], flags := f.flags, hasForceUpdate := false,
                    effects := f.queue.effects }).newLanes,
            memoizedState := ((f.queue.baseUpdates ++ f.queue.pending).foldl
                  (processStep renderLanes wipRenderLanes props)
                  { newState := f.queue.baseState, newLanes := NoLanes, newBaseState := none,
                    newBaseUpdates := [], flags := f.flags, hasForceUpdate := false,
                    effects := f.queue.effects }).newState },
        hasForceUpdate := ((f.queue.baseUpdates ++ f.queue.pending).foldl
                  (processStep renderLanes wipRenderLanes props)
                  { newState := f.queue.baseState, newLanes := NoLanes, newBaseState := none,
                    newBaseUpdates := [], flags := f.flags, hasForceUpdate := false,
                    effects := f.queue.effects }).hasForceUpdate,
        markedSkippedLanes := some ((f.queue.baseUpdates ++ f.queue.pending).foldl
                  (processStep renderLanes wipRenderLanes props)
                  { newState := f.queue.baseState, newLanes := NoLanes, newBaseState := none,
                    newBaseUpdates := [], flags := f.flags, hasForceUpdate := false,
                    effects := f.queue.effects }).newLanes } := by
  simp only [processUpdateQueue, h, Bool.false_eq_true, if_false]

/-- The empty-list branch of `processUpdateQueue`: nothing happens. -/
theorem processUpdateQueue_empty (f : FiberLike) (props : JSVal)
    (renderLanes wipRenderLanes : Lanes)
    (h : (f.queue.baseUpdates ++ f.queue.pending).isEmpty = true) :
    processUpdateQueue f props renderLanes wipRenderLanes =
      { fiber :=
          { f with queue := { f.queue with
                              baseUpdates := f.queue.baseUpdates ++ f.queue.pending,
                              pending := [] } },
        hasForceUpdate := false, markedSkippedLanes := none } := by
  simp only [processUpdateQueue, h, if_true]

/-- Loop invariant: the skipped-lane accumulator equals the merge of the
lanes of the reduced list built so far. -/
theorem processStep_lanes_inv (renderLanes wipRenderLanes : Lanes) (props : JSVal)
    (s : LoopState) (u : Update)
    (h : s.newLanes = lanesOf s.newBaseUpdates) :
    (processStep renderLanes wipRenderLanes props s u).newLanes
      = lanesOf (processStep renderLanes wipRenderLanes props s u).newBaseUpdates := by
  by_cases hs : shouldSkip renderLanes wipRenderLanes u = true
  · rw [processStep_skip _ _ _ _ _ hs]
    by_cases hemp : s.newBaseUpdates.isEmpty
    · have h0 : s.newBaseUpdates = [] := by simpa [List.isEmpty_iff] using hemp
      simp [h, h0, hemp, lanesOf, mergeLanes, NoLanes, skippedClone]
    · simp [h, hemp, lanesOf_append, skippedClone]
  · rw [processStep_qualify _ _ _ _ _ (by simpa using hs)]
    split
    all_goals
      by_cases hemp : s.newBaseUpdates.isEmpty
    · simp [hemp, h]
    · simp [hemp, h, lanesOf_append, committedClone, mergeLanes, NoLane]
    · simp [hemp, h]
    · simp [hemp, h, lanesOf_append, committedClone, mergeLanes, NoLane]

/-- Loop invariant: once the reduced list is non-empty the skipped-lane
accumulator is non-empty. -/
theorem processStep_nonempty_inv (renderLanes wipRenderLanes : Lanes) (props : JSVal)
    (s : LoopState) (u : Update)
    (h : s.newBaseUpdates = [] ∨ s.newLanes ≠ NoLanes) :
    (processStep renderLanes wipRenderLanes props s u).newBaseUpdates = []
    ∨ (processStep renderLanes wipRenderLanes props s u).newLanes ≠ NoLanes := by
  by_cases hs : shouldSkip renderLanes wipRenderLanes u = true
  · right
    have hne := shouldSkip_lane_ne renderLanes wipRenderLanes u hs
    rw [processStep_skip _ _ _ _ _ hs]
    by_cases hemp : s.newBaseUpdates.isEmpty <;>
      · simp only [hemp, if_true, if_false, mergeLanes, NoLanes, ne_eq]
        intro hc
        exact hne (by simpa [NoLanes] using (Finset.union_eq_empty.mp hc).2)
  · rw [processStep_qualify _ _ _ _ _ (by simpa using hs)]
    split
    all_goals
      by_cases hemp : s.newBaseUpdates.isEmpty
    · exact Or.inl (by simpa [hemp] using (by simpa [List.isEmpty_iff] using hemp : s.newBaseUpdates = []))
    · refine Or.inr ?_
      rcases h with h0 | h0
      · exact absurd h0 (by simpa [List.isEmpty_iff] using hemp)
      · simpa using h0
    · exact Or.inl (by simpa [hemp] using (by simpa [List.isEmpty_iff] using hemp : s.newBaseUpdates = []))
    · refine Or.inr ?_
      rcases h with h0 | h0
      · exact absurd h0 (by simpa [List.isEmpty_iff] using hemp)
      · simpa using h0

/-- Folded version of the two lane invariants. -/
theorem processFold_lanes_inv (renderLanes wipRenderLanes : Lanes) (props : JSVal)
    (us : List Update) (s : LoopState)
    (h1 : s.newLanes = lanesOf s.newBaseUpdates)
    (h2 : s.newBaseUpdates = [] ∨ s.newLanes ≠ NoLanes) :
    (us.foldl (processStep renderLanes wipRenderLanes props) s).newLanes
      = lanesOf ((us.foldl (processStep renderLanes wipRenderLanes props) s).newBaseUpdates)
    ∧ ((us.foldl (processStep renderLanes wipRenderLanes props) s).newBaseUpdates = []
        ∨ (us.foldl (processStep renderLanes wipRenderLanes props) s).newLanes ≠ NoLanes) := by
  induction us generalizing s with
  | nil => exact ⟨h1, h2⟩
  | cons u us ih =>
    simp only [List.foldl_cons]
    exact ih _ (processStep_lanes_inv _ _ _ _ _ h1) (processStep_nonempty_inv _ _ _ _ _ h2)

/-- C3 (amended): after a `processUpdateQueue` call that walked a non-empty
update list, `shared.lanes` is left unchanged (the `NoLanes` reset at lines
763-766 is unreachable); it is the work-in-progress fiber's `lanes` field
that equals the merge of the lanes of the records remaining in the reduced
durable list, and that merge is empty exactly when the reduced durable list
is empty. -/
theorem processUpdateQueue_lanes_amended (f : FiberLike) (props : JSVal)
    (renderLanes wipRenderLanes : Lanes)
    (h : f.queue.baseUpdates ++ f.queue.pending ≠ []) :
    (processUpdateQueue f props renderLanes wipRenderLanes).fiber.queue.sharedLanes
        = f.queue.sharedLanes
    ∧ (processUpdateQueue f props renderLanes wipRenderLanes).fiber.lanes
        = lanesOf (processUpdateQueue f props renderLanes wipRenderLanes).fiber.queue.baseUpdates
    ∧ ((processUpdateQueue f props renderLanes wipRenderLanes).fiber.lanes = NoLanes
        ↔ (processUpdateQueue f props renderLanes wipRenderLanes).fiber.queue.baseUpdates = []) := by
  have hemp : (f.queue.baseUpdates ++ f.queue.pending).isEmpty = false := by
    simpa [List.isEmpty_iff] using h
  rw [processUpdateQueue_walk f props renderLanes wipRenderLanes hemp]
  dsimp only
  obtain ⟨g1, g2⟩ := processFold_lanes_inv renderLanes wipRenderLanes props
    (f.queue.baseUpdates ++ f.queue.pending)
    { newState := f.queue.baseState, newLanes := NoLanes, newBaseState := none,
      newBaseUpdates := [], flags := f.flags, hasForceUpdate := false,
      effects := f.queue.effects }
    (by simp [lanesOf]) (Or.inl rfl)
  refine ⟨rfl, g1, ?_, ?_⟩
  · intro hl
    rcases g2 with h0 | h0
    · exact h0
    · exact absurd hl h0
  · intro hl
    rw [g1, hl]
    simp [lanesOf]

/-- Witness for the amended C3: the probe fiber's walked list is non-empty,
and after processing at window `{1}` the shared lanes are untouched while
the fiber's own lanes are empty together with the reduced list. -/
theorem processUpdateQueue_lanes_amended_witness :
    lanesProbeFiber.queue.baseUpdates ++ lanesProbeFiber.queue.pending ≠ []
    ∧ ((processUpdateQueue lanesProbeFiber .jnull {1} NoLanes).fiber.queue.sharedLanes
          = lanesProbeFiber.queue.sharedLanes
        ∧ (processUpdateQueue lanesProbeFiber .jnull {1} NoLanes).fiber.lanes
            = lanesOf (processUpdateQueue lanesProbeFiber .jnull {1} NoLanes).fiber.queue.baseUpdates
        ∧ ((processUpdateQueue lanesProbeFiber .jnull {1} NoLanes).fiber.lanes = NoLanes
            ↔ (processUpdateQueue lanesProbeFiber .jnull {1} NoLanes).fiber.queue.baseUpdates = [])) :=
  ⟨by simp [lanesProbeFiber], processUpdateQueue_lanes_amended lanesProbeFiber .jnull {1} NoLanes
    (by simp [lanesProbeFiber])⟩

/-- The state returned by `getStateFromUpdate` does not depend on the
incoming fiber flags or force-update flag; those arguments are only threaded
through as side effects. -/
theorem getStateFromUpdate_state_indep (fl fl' : Flags) (hf hf' : Bool) (u : Update)
    (s p : JSVal) :
    (getStateFromUpdate fl hf u s p).state = (getStateFromUpdate fl' hf' u s p).state := by
  unfold getStateFromUpdate
  dsimp only
  split_ifs <;> rfl

/-- The state returned by `getStateFromUpdate` depends on the update only
through its tag and payload — a clone with a different lane or event time
produces the same state. -/
theorem getStateFromUpdate_state_congr (u v : Update) (ht : v.tag = u.tag)
    (hp : v.payload = u.payload) (fl fl' : Flags) (hf hf' : Bool) (s p : JSVal) :
    (getStateFromUpdate fl hf v s p).state = (getStateFromUpdate fl' hf' u s p).state := by
  unfold getStateFromUpdate
  rw [ht, hp]
  dsimp only
  split_ifs <;> rfl

/-- `applyAllUpdates` unfolded over a head element. -/
theorem applyAllUpdates_cons (props b : JSVal) (u : Update) (us : List Update) :
    applyAllUpdates props b (u :: us)
      = applyAllUpdates props (getStateFromUpdate NoFlags false u b props).state us := by
  simp [applyAllUpdates]

/-- `applyAllUpdates` unfolded over a trailing element. -/
theorem applyAllUpdates_append1 (props b : JSVal) (us : List Update) (u : Update) :
    applyAllUpdates props b (us ++ [u])
      = (getStateFromUpdate NoFlags false u (applyAllUpdates props b us) props).state := by
  simp [applyAllUpdates, List.foldl_append]

/-- What the queue still denotes mid-loop: the result of replaying the
reduced list built so far on top of the base state it will publish. -/
def loopValue (props : JSVal) (s : LoopState) : JSVal :=
  applyAllUpdates props (finishedBaseState s) s.newBaseUpdates

/-- One loop iteration advances `loopValue` by exactly one application of
the reducer to the original update (skipped updates are rebased, qualifying
updates are applied), and keeps the snapshot present whenever the reduced
list is non-empty. -/
theorem processStep_value (renderLanes wipRenderLanes : Lanes) (props : JSVal)
    (s : LoopState) (u : Update)
    (hgs : s.newBaseUpdates = [] ∨ s.newBaseState.isSome = true) :
    loopValue props (processStep renderLanes wipRenderLanes props s u)
        = (getStateFromUpdate NoFlags false u (loopValue props s) props).state
    ∧ ((processStep renderLanes wipRenderLanes props s u).newBaseUpdates = []
        ∨ (processStep renderLanes wipRenderLanes props s u).newBaseState.isSome = true) := by
  by_cases hs : shouldSkip renderLanes wipRenderLanes u = true
  · rw [processStep_skip _ _ _ _ _ hs]
    by_cases hemp : s.newBaseUpdates.isEmpty
    · have h0 : s.newBaseUpdates = [] := by simpa [List.isEmpty_iff] using hemp
      refine ⟨?_, by simp [hemp]⟩
      simp only [hemp, if_true, loopValue, finishedBaseState, h0]
      simp only [List.isEmpty_cons, List.isEmpty_nil, Option.getD_some]
      simp only [applyAllUpdates, List.foldl_cons, List.foldl_nil]
      exact getStateFromUpdate_state_congr u (skippedClone u) rfl rfl _ _ _ _ _ _
    · obtain ⟨b, hb⟩ := Option.isSome_iff_exists.mp (hgs.resolve_left
        (by simpa [List.isEmpty_iff] using hemp))
      refine ⟨?_, by simp [hemp, hb]⟩
      simp only [hemp, if_false, loopValue, finishedBaseState, hb]
      have hne2 : (s.newBaseUpdates ++ [skippedClone u]).isEmpty = false := by
        simp
      simp only [hne2, hemp, Bool.false_eq_true, if_false, Option.getD_some]
      rw [applyAllUpdates_append1]
      exact getStateFromUpdate_state_congr u (skippedClone u) rfl rfl _ _ _ _ _ _
  · rw [processStep_qualify _ _ _ _ _ (by simpa using hs)]
    have key : ∀ t : LoopState,
        t.newState = (getStateFromUpdate s.flags s.hasForceUpdate u s.newState props).state →
        t.newBaseState = s.newBaseState →
        t.newBaseUpdates = (if s.newBaseUpdates.isEmpty then s.newBaseUpdates
                            else s.newBaseUpdates ++ [committedClone u]) →
        loopValue props t = (getStateFromUpdate NoFlags false u (loopValue props s) props).state
        ∧ (t.newBaseUpdates = [] ∨ t.newBaseState.isSome = true) := by
      intro t ht1 ht2 ht3
      by_cases hemp : s.newBaseUpdates.isEmpty
      · have h0 : s.newBaseUpdates = [] := by simpa [List.isEmpty_iff] using hemp
        constructor
        · simp only [loopValue, finishedBaseState, ht1, ht2, ht3, hemp, if_true, h0]
          simp only [List.isEmpty_nil, Option.getD_some, applyAllUpdates, List.foldl_nil]
          exact getStateFromUpdate_state_indep _ _ _ _ _ _ _
        · exact Or.inl (by simp [ht3, hemp, h0])
      · obtain ⟨b, hb⟩ := Option.isSome_iff_exists.mp (hgs.resolve_left
          (by simpa [List.isEmpty_iff] using hemp))
        constructor
        · have hne2 : (s.newBaseUpdates ++ [committedClone u]).isEmpty = false := by simp
          simp only [loopValue, finishedBaseState, ht2, ht3, hemp, if_false, hb,
            Bool.false_eq_true, hne2, Option.getD_some]
          rw [applyAllUpdates_append1]
          exact getStateFromUpdate_state_congr u (committedClone u) rfl rfl _ _ _ _ _ _
        · exact Or.inr (by simp [ht2, hb])
    split
    · exact key _ rfl rfl rfl
    · exact key _ rfl rfl rfl

/-- The whole loop replays the walked list on `loopValue`. -/
theorem processFold_value (renderLanes wipRenderLanes : Lanes) (props : JSVal)
    (us : List Update) (s : LoopState)
    (hgs : s.newBaseUpdates = [] ∨ s.newBaseState.isSome = true) :
    loopValue props (us.foldl (processStep renderLanes wipRenderLanes props) s)
      = applyAllUpdates props (loopValue props s) us := by
  induction us generalizing s with
  | nil => simp [applyAllUpdates]
  | cons u us ih =>
    obtain ⟨h1, h2⟩ := processStep_value renderLanes wipRenderLanes props s u hgs
    simp only [List.foldl_cons]
    rw [ih _ h2, h1, applyAllUpdates_cons]

/-- One `processUpdateQueue` pass preserves the value the queue denotes:
replaying the reduced list from the new base state gives the same state as
replaying the original list from the original base state. -/
theorem processUpdateQueue_preserves_value (f : FiberLike) (props : JSVal)
    (renderLanes wipRenderLanes : Lanes) :
    applyAllUpdates props (processUpdateQueue f props renderLanes wipRenderLanes).fiber.queue.baseState
        ((processUpdateQueue f props renderLanes wipRenderLanes).fiber.queue.baseUpdates
          ++ (processUpdateQueue f props renderLanes wipRenderLanes).fiber.queue.pending)
      = applyAllUpdates props f.queue.baseState (f.queue.baseUpdates ++ f.queue.pending) := by
  by_cases hemp : (f.queue.baseUpdates ++ f.queue.pending).isEmpty = true
  · rw [processUpdateQueue_empty f props renderLanes wipRenderLanes hemp]
    dsimp only
    simp
  · have hemp' : (f.queue.baseUpdates ++ f.queue.pending).isEmpty = false := by
      simpa using hemp
    rw [processUpdateQueue_walk f props renderLanes wipRenderLanes hemp']
    dsimp only
    rw [List.append_nil]
    have hfold := processFold_value renderLanes wipRenderLanes props
      (f.queue.baseUpdates ++ f.queue.pending)
      { newState := f.queue.baseState, newLanes := NoLanes, newBaseState := none,
        newBaseUpdates := [], flags := f.flags, hasForceUpdate := false,
        effects := f.queue.effects }
      (Or.inl rfl)
    calc applyAllUpdates props _ _ = loopValue props _ := rfl
      _ = applyAllUpdates props (loopValue props
            { newState := f.queue.baseState, newLanes := NoLanes, newBaseState := none,
              newBaseUpdates := [], flags := f.flags, hasForceUpdate := false,
              effects := f.queue.effects })
            (f.queue.baseUpdates ++ f.queue.pending) := hfold
      _ = applyAllUpdates props f.queue.baseState (f.queue.baseUpdates ++ f.queue.pending) := by
            simp [loopValue, finishedBaseState, applyAllUpdates]

/-- The invariant carried across passes: the queue still denotes the value
`A`, and once the queue has fully drained both its base state and the
fiber's memoized state are `A`. -/
def processedTo (props A : JSVal) (fb : FiberLike) : Prop :=
  applyAllUpdates props fb.queue.baseState (fb.queue.baseUpdates ++ fb.queue.pending) = A
  ∧ (fb.queue.baseUpdates ++ fb.queue.pending = [] →
      fb.queue.baseState = A ∧ fb.memoizedState = A)

/-- One pass preserves the cross-pass invariant. -/
theorem processPass_preserves (props A : JSVal) (renderLanes wipRenderLanes : Lanes)
    (fb : FiberLike) (h : processedTo props A fb) :
    processedTo props A (processUpdateQueue fb props renderLanes wipRenderLanes).fiber := by
  by_cases hemp : (fb.queue.baseUpdates ++ fb.queue.pending).isEmpty = true
  · rw [processUpdateQueue_empty fb props renderLanes wipRenderLanes hemp]
    dsimp only
    constructor
    · simpa using h.1
    · intro hnil
      have h0 : fb.queue.baseUpdates ++ fb.queue.pending = [] := by simpa using hnil
      exact h.2 h0
  · have hemp' : (fb.queue.baseUpdates ++ fb.queue.pending).isEmpty = false := by
      simpa using hemp
    have hval := processUpdateQueue_preserves_value fb props renderLanes wipRenderLanes
    constructor
    · rw [hval]
      exact h.1
    · intro hnil
      rw [processUpdateQueue_walk fb props renderLanes wipRenderLanes hemp'] at hnil ⊢
      dsimp only at hnil ⊢
      rw [List.append_nil] at hnil
      have hbase : finishedBaseState ((fb.queue.baseUpdates ++ fb.queue.pending).foldl
          (processStep renderLanes wipRenderLanes props)
          { newState := fb.queue.baseState, newLanes := NoLanes, newBaseState := none,
            newBaseUpdates := [], flags := fb.flags, hasForceUpdate := false,
            effects := fb.queue.effects })
          = ((fb.queue.baseUpdates ++ fb.queue.pending).foldl
          (processStep renderLanes wipRenderLanes props)
          { newState := fb.queue.baseState, newLanes := NoLanes, newBaseState := none,
            newBaseUpdates := [], flags := fb.flags, hasForceUpdate := false,
            effects := fb.queue.effects }).newState := by
        simp only [finishedBaseState, hnil, List.isEmpty_nil, if_true, Option.getD_some]
      have hA : finishedBaseState ((fb.queue.baseUpdates ++ fb.queue.pending).foldl
          (processStep renderLanes wipRenderLanes props)
          { newState := fb.queue.baseState, newLanes := NoLanes, newBaseState := none,
            newBaseUpdates := [], flags := fb.flags, hasForceUpdate := false,
            effects := fb.queue.effects }) = A := by
        have := hval
        rw [processUpdateQueue_walk fb props renderLanes wipRenderLanes hemp'] at this
        dsimp only at this
        rw [List.append_nil, hnil] at this
        simpa [applyAllUpdates] using this.trans h.1
      exact ⟨hA, hbase ▸ hA⟩

/-- Any sequence of passes preserves the cross-pass invariant. -/
theorem runPasses_preserves (props A : JSVal) (passes : List (Lanes × Lanes)) :
    ∀ fb : FiberLike, processedTo props A fb → processedTo props A (runPasses props fb passes) := by
  induction passes with
  | nil => intro fb h; exact h
  | cons p ps ih =>
    intro fb h
    exact ih _ (processPass_preserves props A p.1 p.2 fb h)

/-- C1: for every non-empty update list enqueued against one queue and
every sequence of passes after which every update has qualified (the reduced
durable list has drained), the final base state and the final memoized state
both equal the result of applying all updates once, in insertion order, to
the original base state in a single step. -/
theorem processUpdateQueue_refines_single_pass (props : JSVal) (f0 : FiberLike)
    (passes : List (Lanes × Lanes))
    (hne : f0.queue.baseUpdates ++ f0.queue.pending ≠ [])
    (hdone : (runPasses props f0 passes).queue.baseUpdates
              ++ (runPasses props f0 passes).queue.pending = []) :
    (runPasses props f0 passes).queue.baseState
        = applyAllUpdates props f0.queue.baseState (f0.queue.baseUpdates ++ f0.queue.pending)
    ∧ (runPasses props f0 passes).memoizedState
        = applyAllUpdates props f0.queue.baseState (f0.queue.baseUpdates ++ f0.queue.pending) := by
  have h0 : processedTo props
      (applyAllUpdates props f0.queue.baseState (f0.queue.baseUpdates ++ f0.queue.pending)) f0 :=
    ⟨rfl, fun hc => absurd hc hne⟩
  exact (runPasses_preserves props _ passes f0 h0).2 hdone

/-- Witness for C1: the skip-then-rebase example processed at windows
`{P1}` then `{P1, P2}` drains the queue and lands on the one-shot replay
result. -/
theorem processUpdateQueue_refines_single_pass_witness :
    skipRebaseFiber.queue.baseUpdates ++ skipRebaseFiber.queue.pending ≠ []
    ∧ (runPasses .jnull skipRebaseFiber [(P1, NoLanes), (mergeLanes P1 P2, NoLanes)]).queue.baseUpdates
        ++ (runPasses .jnull skipRebaseFiber [(P1, NoLanes), (mergeLanes P1 P2, NoLanes)]).queue.pending = []
    ∧ ((runPasses .jnull skipRebaseFiber [(P1, NoLanes), (mergeLanes P1 P2, NoLanes)]).queue.baseState
          = applyAllUpdates .jnull skipRebaseFiber.queue.baseState
              (skipRebaseFiber.queue.baseUpdates ++ skipRebaseFiber.queue.pending)
        ∧ (runPasses .jnull skipRebaseFiber [(P1, NoLanes), (mergeLanes P1 P2, NoLanes)]).memoizedState
          = applyAllUpdates .jnull skipRebaseFiber.queue.baseState
              (skipRebaseFiber.queue.baseUpdates ++ skipRebaseFiber.queue.pending)) :=
  ⟨by simp [skipRebaseFiber], rfl,
    processUpdateQueue_refines_single_pass .jnull skipRebaseFiber
      [(P1, NoLanes), (mergeLanes P1 P2, NoLanes)] (by simp [skipRebaseFiber]) rfl⟩

/-- `HostRoot` work tag. -/
def HostRoot : ℕ := 3

/-- `OffscreenComponent` work tag. -/
def OffscreenComponent : ℕ := 22

/-- Point update of a heap addressed by naturals. -/
def hset {α : Type} (h : ℕ → α) (i : ℕ) (a : α) : ℕ → α :=
  fun j => if j = i then a else h j

/-- Reading the written cell. -/
theorem hset_same {α : Type} (h : ℕ → α) (i : ℕ) (a : α) : hset h i a i = a := by
  simp [hset]

/-- Reading another cell. -/
theorem hset_other {α : Type} (h : ℕ → α) (i j : ℕ) (a : α) (hij : j ≠ i) :
    hset h i a j = h j := by
  simp [hset, hij]

/-- The fiber fields read and written by the concurrent-update module:
work tag, own lanes, descendant lanes, the `return` pointer (named `ret`
since `return` is reserved), the alternate pointer, flags, the update queue
reference (`none` when unmounted), the offscreen instance's `isHidden` bit
(meaningful when `tag = OffscreenComponent`), and the `stateNode` root
reference (meaningful when `tag = HostRoot`).  Fibers live in a heap
`ℕ → FiberN` addressed by identifiers, so pointer aliasing (shared alternate
or return targets) is representable. -/
structure FiberN : Type where
  tag : ℕ
  lanes : Lanes
  childLanes : Lanes
  ret : Option ℕ
  alternate : Option ℕ
  flags : Flags
  updateQueue : Option ℕ
  isHidden : Bool
  stateNodeRoot : ℕ

/-- A `ConcurrentUpdate`: its lane and its `next` pointer into the update
heap. -/
structure CUpd : Type where
  lane : Lanes
  next : Option ℕ

/-- A shared queue as the concurrent-update module sees it: the `pending`
pointer to the last record of the circular pending list. -/
structure SharedQueueN : Type where
  pending : Option ℕ

/-- One 4-slot tuple of the staging buffer: `(fiber, queue, update, lane)`,
where queue and update may be null for priority-only hints. -/
structure Staged : Type where
  fiber : ℕ
  queue : Option ℕ
  update : Option ℕ
  lane : Lanes

/-- The module state of `ReactFiberConcurrentUpdates` plus the heaps it
touches: the `concurrentQueues` array (as a list of 4-slot tuples; the write
index is its length), the `concurrentlyUpdatedLanes` accumulator, the fiber,
update, shared-queue and root heaps, and the development-only globals of the
class queue module (`didWarnUpdateInsideUpdate`, `currentlyProcessingQueue`,
with warning emissions counted per kind). -/
structure EnqWorld : Type where
  fibers : ℕ → FiberN
  updates : ℕ → CUpd
  queues : ℕ → SharedQueueN
  roots : ℕ → RootModel
  concurrentQueues : List Staged
  concurrentlyUpdatedLanes : Lanes
  didWarnUpdateInsideUpdate : Bool
  currentlyProcessingQueue : Option ℕ
  updateInsideUpdateWarnings : ℕ
  notYetMountedWarnings : ℕ

/-- Merge a lane into a fiber's own lanes. -/
def mergeFiberLanes (h : ℕ → FiberN) (i : ℕ) (lane : Lanes) : ℕ → FiberN :=
  hset h i { h i with lanes := mergeLanes (h i).lanes lane }

/-- Merge a lane into a fiber's child lanes. -/
def mergeFiberChildLanes (h : ℕ → FiberN) (i : ℕ) (lane : Lanes) : ℕ → FiberN :=
  hset h i { h i with childLanes := mergeLanes (h i).childLanes lane }

/-- Write an update record's `next` pointer. -/
def setUpdNext (h : ℕ → CUpd) (i : ℕ) (v : Option ℕ) : ℕ → CUpd :=
  hset h i { h i with next := v }

/-- Write a shared queue's `pending` pointer. -/
def setQueuePending (h : ℕ → SharedQueueN) (i : ℕ) (v : Option ℕ) : ℕ → SharedQueueN :=
  hset h i { h i with pending := v }

/-- The circular-list insertion shared by `finishQueueingConcurrentUpdates`
(lines 909-921) and the render-phase branch of the class `enqueueUpdate`
(lines 313-323): if the pending list is empty the update points at itself,
otherwise it is spliced behind the current last record; the queue's pending
pointer then designates the new update as the last record. -/
def circularPush (updates : ℕ → CUpd) (queues : ℕ → SharedQueueN) (queue update : ℕ) :
    (ℕ → CUpd) × (ℕ → SharedQueueN) :=
  let pending := (queues queue).pending
  let updates1 :=
    match pending with
    | none => setUpdNext updates update (some update)
    | some p =>
      let u1 := setUpdNext updates update ((updates p).next)
      setUpdNext u1 p (some update)
  (updates1, setQueuePending queues queue (some update))

/-- The `while (parent !== null)` walk of `markUpdateLaneFromFiberToRoot`
(lines 1064-1089), with explicit fuel: merge the lane into the parent's
child lanes and into its alternate's, record whether a hidden offscreen
component was passed, and continue upward.  Returns the final heap, the
hidden flag, and the last node reached. -/
def markUpdateLaneLoop (lane : Lanes) : ℕ → (ℕ → FiberN) → ℕ → Bool → ((ℕ → FiberN) × Bool × ℕ)
  | 0, h, node, isHidden => (h, isHidden, node)
  | fuel + 1, h, node, isHidden =>
    match (h node).ret with
    | none => (h, isHidden, node)
    | some parent =>
      let h1 := mergeFiberChildLanes h parent lane
      let h2 :=
        match (h1 parent).alternate with
        | some alt => mergeFiberChildLanes h1 alt lane
        | none => h1
      let isHidden2 :=
        if (h2 parent).tag = OffscreenComponent ∧ (h2 parent).isHidden = true then true
        else isHidden
      markUpdateLaneLoop lane fuel h2 parent isHidden2

/-- `markUpdateLaneFromFiberToRoot(sourceFiber, update, lane)`
(lines 1044-1098): merge the lane into the source fiber's lanes and its
alternate's, walk the return chain merging child lanes, and — when a hidden
offscreen ancestor was seen, the update is non-null and the topmost node is
a `HostRoot` — record the update in the root's hidden-update table via
`markHiddenUpdate`. -/
def markUpdateLaneFromFiberToRoot (fuel : ℕ) (fibers : ℕ → FiberN)
    (roots : ℕ → RootModel) (sourceFiber : ℕ) (update : Option ℕ) (lane : Lanes) :
    (ℕ → FiberN) × (ℕ → RootModel) :=
  let h0 := mergeFiberLanes fibers sourceFiber lane
  let h1 :=
    match (h0 sourceFiber).alternate with
    | some alt => mergeFiberLanes h0 alt lane
    | none => h0
  let walk := markUpdateLaneLoop lane fuel h1 sourceFiber false
  let h2 := walk.1
  let isHidden := walk.2.1
  let node := walk.2.2
  match update with
  | some upd =>
    if isHidden = true ∧ (h2 node).tag = HostRoot then
      (h2, hset roots ((h2 node).stateNodeRoot)
        (markHiddenUpdate (roots ((h2 node).stateNodeRoot)) upd lane))
    else (h2, roots)
  | none => (h2, roots)

/-- The proper ancestors of a node along its `return` chain, within the
given fuel (mirrors the truncation of `markUpdateLaneLoop`). -/
def ancestors (h : ℕ → FiberN) : ℕ → ℕ → List ℕ
  | 0, _ => []
  | fuel + 1, node =>
    match (h node).ret with
    | none => []
    | some parent => parent :: ancestors h fuel parent

/-- The topmost node reached by the walk. -/
def topNode (h : ℕ → FiberN) (fuel node : ℕ) : ℕ :=
  (ancestors h fuel node).getLastD node

/-- Whether the `return` chain reaches a node with no parent within the
given fuel (so the fuelled walk is the whole walk). -/
def chainTerminates (h : ℕ → FiberN) : ℕ → ℕ → Bool
  | 0, node => decide ((h node).ret = none)
  | fuel + 1, node =>
    match (h node).ret with
    | none => true
    | some parent => chainTerminates h fuel parent

/-- Whether a fiber is a hidden offscreen component. -/
def hiddenOffscreen (f : FiberN) : Bool :=
  decide (f.tag = OffscreenComponent ∧ f.isHidden = true)

/-- Whether some node of a list is a hidden offscreen component. -/
def anyHiddenOffscreen (h : ℕ → FiberN) (l : List ℕ) : Bool :=
  l.any (fun a => hiddenOffscreen (h a))

/-- The staging `enqueueUpdate(fiber, queue, update, lane)` of
`ReactFiberConcurrentUpdates` (lines 943-971): push the four slots onto the
buffer, merge the lane into `concurrentlyUpdatedLanes`, and eagerly merge it
into the fiber's lanes and its alternate's. -/
def enqueueUpdateStaged (w : EnqWorld) (fiber : ℕ) (queue : Option ℕ)
    (update : Option ℕ) (lane : Lanes) : EnqWorld :=
  let w1 := { w with
    concurrentQueues := w.concurrentQueues ++ [(⟨fiber, queue, update, lane⟩ : Staged)],
    concurrentlyUpdatedLanes := mergeLanes w.concurrentlyUpdatedLanes lane }
  let fibers1 := mergeFiberLanes w1.fibers fiber lane
  let fibers2 :=
    match (fibers1 fiber).alternate with
    | some alt => mergeFiberLanes fibers1 alt lane
    | none => fibers1
  { w1 with fibers := fibers2 }

/-- One tuple of the flush loop of `finishQueueingConcurrentUpdates`
(lines 890-933): when both queue and update are non-null, splice the update
into the queue's circular pending list; then, when the lane is not `NoLane`,
run `markUpdateLaneFromFiberToRoot`. -/
def processStagedEntry (fuel : ℕ) (w : EnqWorld) (e : Staged) : EnqWorld :=
  let w1 :=
    match e.queue, e.update with
    | some queue, some update =>
      let r := circularPush w.updates w.queues queue update
      { w with updates := r.1, queues := r.2 }
    | _, _ => w
  if e.lane ≠ NoLane then
    let r := markUpdateLaneFromFiberToRoot fuel w1.fibers w1.roots e.fiber e.update e.lane
    { w1 with fibers := r.1, roots := r.2 }
  else w1

/-- `finishQueueingConcurrentUpdates()` (lines 878-934): capture the buffer,
reset the write index and the staged-lane accumulator, then process every
staged tuple from index 0 in order. -/
def finishQueueingConcurrentUpdates (fuel : ℕ) (w : EnqWorld) : EnqWorld :=
  let staged := w.concurrentQueues
  let w1 := { w with concurrentQueues := [], concurrentlyUpdatedLanes := NoLanes }
  staged.foldl (processStagedEntry fuel) w1

/-- `detectUpdateOnUnmountedFiber(sourceFiber, parent)` (lines 1118-1128),
development-only: warn when the examined fiber has no alternate and carries
the `Placement` or `Hydrating` flag. -/
def detectUpdateOnUnmountedFiber (w : EnqWorld) (parent : ℕ) : EnqWorld :=
  if (w.fibers parent).alternate = none
      ∧ intersectLanes (w.fibers parent).flags (mergeLanes Placement Hydrating) ≠ NoFlags then
    { w with notYetMountedWarnings := w.notYetMountedWarnings + 1 }
  else w

/-- The `while (parent !== null)` walk of `getRootForUpdatedFiber`
(lines 1108-1114), with fuel: run the unmounted-fiber check on the current
node, then climb. -/
def getRootLoop : ℕ → EnqWorld → ℕ → EnqWorld × ℕ
  | 0, w, node => (w, node)
  | fuel + 1, w, node =>
    match (w.fibers node).ret with
    | none => (w, node)
    | some parent =>
      let w1 := detectUpdateOnUnmountedFiber w node
      getRootLoop fuel w1 parent

/-- `getRootForUpdatedFiber(sourceFiber)` (lines 1099-1116): walk to the top
of the return chain and return the root when the topmost node is a
`HostRoot`, else null. -/
def getRootForUpdatedFiber (fuel : ℕ) (w : EnqWorld) (sourceFiber : ℕ) :
    EnqWorld × Option ℕ :=
  let w1 := detectUpdateOnUnmountedFiber w sourceFiber
  let r := getRootLoop fuel w1 sourceFiber
  (r.1, if (r.1.fibers r.2).tag = HostRoot then some ((r.1.fibers r.2).stateNodeRoot) else none)

/-- `enqueueConcurrentClassUpdate(fiber, queue, update, lane)`
(lines 1002-1021): stage the update, then find the root. -/
def enqueueConcurrentClassUpdate (fuel : ℕ) (w : EnqWorld) (fiber queue update : ℕ)
    (lane : Lanes) : EnqWorld × Option ℕ :=
  let w1 := enqueueUpdateStaged w fiber (some queue) (some update) lane
  getRootForUpdatedFiber fuel w1 fiber

/-- The class-queue `enqueueUpdate(fiber, update, lane)` (lines 273-333).
A null update queue means the fiber was unmounted: return null with no
mutation.  Otherwise the development build warns — once per module lifetime
— when the shared queue is the one currently being processed.  A render-
phase update (the `isUnsafeClassRenderPhaseUpdate` result is passed in as a
flag since that predicate lives in the work-loop module) is linked directly
into the circular pending list and the lanes are marked via the null-update
variant of `markUpdateLaneFromFiberToRoot`; otherwise the update goes
through the concurrent staging path. -/
def enqueueUpdateClass (fuel : ℕ) (w : EnqWorld) (fiber update : ℕ) (lane : Lanes)
    (renderPhaseUpdate : Bool) : EnqWorld × Option ℕ :=
  match (w.fibers fiber).updateQueue with
  | none => (w, none)
  | some sharedQueue =>
    let w1 :=
      if w.currentlyProcessingQueue = some sharedQueue
          ∧ w.didWarnUpdateInsideUpdate = false then
        { w with updateInsideUpdateWarnings := w.updateInsideUpdateWarnings + 1,
                 didWarnUpdateInsideUpdate := true }
      else w
    if renderPhaseUpdate then
      let r := circularPush w1.updates w1.queues sharedQueue update
      let w2 := { w1 with updates := r.1, queues := r.2 }
      let m := markUpdateLaneFromFiberToRoot fuel w2.fibers w2.roots fiber none lane
      let w3 := { w2 with fibers := m.1, roots := m.2 }
      getRootForUpdatedFiber fuel w3 fiber
    else
      enqueueConcurrentClassUpdate fuel w1 fiber sharedQueue update lane

/-- C8: enqueueing against a fiber whose update queue is null (an unmounted
node) returns null ("no root") and performs no mutation whatsoever — the
world is returned unchanged and, the model being total, no exception is
raised. -/
theorem enqueueUpdateClass_unmounted_noop (fuel : ℕ) (w : EnqWorld) (fiber update : ℕ)
    (lane : Lanes) (renderPhaseUpdate : Bool)
    (h : (w.fibers fiber).updateQueue = none) :
    enqueueUpdateClass fuel w fiber update lane renderPhaseUpdate = (w, none) := by
  simp [enqueueUpdateClass, h]

/-- A fiber with a null update queue (unmounted), for concrete witnesses. -/
def unmountedFiber : FiberN :=
  { tag := 1, lanes := NoLanes, childLanes := NoLanes, ret := none, alternate := none,
    flags := NoFlags, updateQueue := none, isHidden := false, stateNodeRoot := 0 }

/-- A quiescent concrete world for witnesses: empty staging buffer, empty
pending lists, no warnings. -/
def baseWorld : EnqWorld :=
  { fibers := fun _ => unmountedFiber,
    updates := fun _ => { lane := NoLanes, next := none },
    queues := fun _ => { pending := none },
    roots := fun _ => { pendingLanes := NoLanes, hiddenUpdates := [] },
    concurrentQueues := [], concurrentlyUpdatedLanes := NoLanes,
    didWarnUpdateInsideUpdate := false, currentlyProcessingQueue := none,
    updateInsideUpdateWarnings := 0, notYetMountedWarnings := 0 }

/-- Witness for C8: in a concrete world whose fiber 0 is unmounted, the
enqueue is a no-op returning null. -/
theorem enqueueUpdateClass_unmounted_noop_witness :
    (baseWorld.fibers 0).updateQueue = none
    ∧ enqueueUpdateClass 5 baseWorld 0 0 P1 false = (baseWorld, none) :=
  ⟨rfl, enqueueUpdateClass_unmounted_noop 5 baseWorld 0 0 P1 false rfl⟩

/-- The unmounted-fiber debug check touches only its own warning counter. -/
theorem detectUpdateOnUnmountedFiber_dev (w : EnqWorld) (p : ℕ) :
    (detectUpdateOnUnmountedFiber w p).concurrentQueues = w.concurrentQueues
    ∧ (detectUpdateOnUnmountedFiber w p).didWarnUpdateInsideUpdate = w.didWarnUpdateInsideUpdate
    ∧ (detectUpdateOnUnmountedFiber w p).updateInsideUpdateWarnings = w.updateInsideUpdateWarnings
    ∧ (detectUpdateOnUnmountedFiber w p).currentlyProcessingQueue = w.currentlyProcessingQueue := by
  unfold detectUpdateOnUnmountedFiber
  split_ifs <;> exact ⟨rfl, rfl, rfl, rfl⟩

/-- The root-finding walk leaves the staging buffer and the
update-inside-update warning state untouched. -/
theorem getRootLoop_dev : ∀ (fuel : ℕ) (w : EnqWorld) (node : ℕ),
    (getRootLoop fuel w node).1.concurrentQueues = w.concurrentQueues
    ∧ (getRootLoop fuel w node).1.didWarnUpdateInsideUpdate = w.didWarnUpdateInsideUpdate
    ∧ (getRootLoop fuel w node).1.updateInsideUpdateWarnings = w.updateInsideUpdateWarnings
    ∧ (getRootLoop fuel w node).1.currentlyProcessingQueue = w.currentlyProcessingQueue
  | 0, w, node => ⟨rfl, rfl, rfl, rfl⟩
  | fuel + 1, w, node => by
    unfold getRootLoop
    cases hr : (w.fibers node).ret with
    | none => exact ⟨rfl, rfl, rfl, rfl⟩
    | some parent =>
      obtain ⟨d1, d2, d3, d4⟩ := detectUpdateOnUnmountedFiber_dev w node
      obtain ⟨g1, g2, g3, g4⟩ := getRootLoop_dev fuel (detectUpdateOnUnmountedFiber w node) parent
      exact ⟨g1.trans d1, g2.trans d2, g3.trans d3, g4.trans d4⟩

/-- `getRootForUpdatedFiber` leaves the staging buffer and the
update-inside-update warning state untouched. -/
theorem getRootForUpdatedFiber_dev (fuel : ℕ) (w : EnqWorld) (f : ℕ) :
    (getRootForUpdatedFiber fuel w f).1.concurrentQueues = w.concurrentQueues
    ∧ (getRootForUpdatedFiber fuel w f).1.didWarnUpdateInsideUpdate = w.didWarnUpdateInsideUpdate
    ∧ (getRootForUpdatedFiber fuel w f).1.updateInsideUpdateWarnings = w.updateInsideUpdateWarnings
    ∧ (getRootForUpdatedFiber fuel w f).1.currentlyProcessingQueue = w.currentlyProcessingQueue := by
  unfold getRootForUpdatedFiber
  obtain ⟨d1, d2, d3, d4⟩ := detectUpdateOnUnmountedFiber_dev w f
  obtain ⟨g1, g2, g3, g4⟩ := getRootLoop_dev fuel (detectUpdateOnUnmountedFiber w f) f
  exact ⟨g1.trans d1, g2.trans d2, g3.trans d3, g4.trans d4⟩

/-- The staging enqueue appends exactly one tuple to the buffer and leaves
the update heap, queue heap, root heap and warning state untouched. -/
theorem enqueueUpdateStaged_shape (w : EnqWorld) (fiber : ℕ) (queue update : Option ℕ)
    (lane : Lanes) :
    (enqueueUpdateStaged w fiber queue update lane).concurrentQueues
        = w.concurrentQueues ++ [(⟨fiber, queue, update, lane⟩ : Staged)]
    ∧ (enqueueUpdateStaged w fiber queue update lane).updates = w.updates
    ∧ (enqueueUpdateStaged w fiber queue update lane).queues = w.queues
    ∧ (enqueueUpdateStaged w fiber queue update lane).roots = w.roots
    ∧ (enqueueUpdateStaged w fiber queue update lane).didWarnUpdateInsideUpdate
        = w.didWarnUpdateInsideUpdate
    ∧ (enqueueUpdateStaged w fiber queue update lane).updateInsideUpdateWarnings
        = w.updateInsideUpdateWarnings
    ∧ (enqueueUpdateStaged w fiber queue update lane).currentlyProcessingQueue
        = w.currentlyProcessingQueue := by
  unfold enqueueUpdateStaged
  cases (mergeFiberLanes w.fibers fiber lane fiber).alternate <;>
    exact ⟨rfl, rfl, rfl, rfl, rfl, rfl, rfl⟩

/-- The render-phase branch of the class enqueue (circular link, lane
marking, root lookup) leaves the warning state untouched. -/
theorem renderPhaseBranch_dev (fuel : ℕ) (w : EnqWorld) (sharedQueue update fiber : ℕ)
    (lane : Lanes) :
    (getRootForUpdatedFiber fuel
      { w with updates := (circularPush w.updates w.queues sharedQueue update).1,
               queues := (circularPush w.updates w.queues sharedQueue update).2,
               fibers := (markUpdateLaneFromFiberToRoot fuel w.fibers w.roots fiber none lane).1,
               roots := (markUpdateLaneFromFiberToRoot fuel w.fibers w.roots fiber none lane).2 }
      fiber).1.updateInsideUpdateWarnings = w.updateInsideUpdateWarnings
    ∧ (getRootForUpdatedFiber fuel
      { w with updates := (circularPush w.updates w.queues sharedQueue update).1,
               queues := (circularPush w.updates w.queues sharedQueue update).2,
               fibers := (markUpdateLaneFromFiberToRoot fuel w.fibers w.roots fiber none lane).1,
               roots := (markUpdateLaneFromFiberToRoot fuel w.fibers w.roots fiber none lane).2 }
      fiber).1.didWarnUpdateInsideUpdate = w.didWarnUpdateInsideUpdate := by
  obtain ⟨g1, g2, g3, g4⟩ := getRootForUpdatedFiber_dev fuel
    { w with updates := (circularPush w.updates w.queues sharedQueue update).1,
             queues := (circularPush w.updates w.queues sharedQueue update).2,
             fibers := (markUpdateLaneFromFiberToRoot fuel w.fibers w.roots fiber none lane).1,
             roots := (markUpdateLaneFromFiberToRoot fuel w.fibers w.roots fiber none lane).2 }
    fiber
  exact ⟨g3, g2⟩

/-- `enqueueConcurrentClassUpdate` stages exactly one tuple and leaves the
warning state untouched. -/
theorem enqueueConcurrentClassUpdate_dev (fuel : ℕ) (w : EnqWorld)
    (fiber queue update : ℕ) (lane : Lanes) :
    (enqueueConcurrentClassUpdate fuel w fiber queue update lane).1.updateInsideUpdateWarnings
        = w.updateInsideUpdateWarnings
    ∧ (enqueueConcurrentClassUpdate fuel w fiber queue update lane).1.didWarnUpdateInsideUpdate
        = w.didWarnUpdateInsideUpdate
    ∧ (enqueueConcurrentClassUpdate fuel w fiber queue update lane).1.concurrentQueues
        = w.concurrentQueues ++ [(⟨fiber, some queue, some update, lane⟩ : Staged)]
    ∧ (enqueueConcurrentClassUpdate fuel w fiber queue update lane).1.currentlyProcessingQueue
        = w.currentlyProcessingQueue := by
  unfold enqueueConcurrentClassUpdate
  obtain ⟨s1, s2, s3, s4, s5, s6, s7⟩ :=
    enqueueUpdateStaged_shape w fiber (some queue) (some update) lane
  obtain ⟨g1, g2, g3, g4⟩ := getRootForUpdatedFiber_dev fuel
    (enqueueUpdateStaged w fiber (some queue) (some update) lane) fiber
  exact ⟨g3.trans s6, g2.trans s5, g1.trans s1, g4.trans s7⟩

/-- One class enqueue emits at most one update-inside-update warning: with
the flag already set, nothing is emitted and the flag stays set; with the
flag clear, either nothing is emitted or one warning is emitted and the flag
becomes set. -/
theorem enqueueUpdateClass_warnings (fuel : ℕ) (w : EnqWorld) (fiber update : ℕ)
    (lane : Lanes) (rp : Bool) :
    (w.didWarnUpdateInsideUpdate = true →
      (enqueueUpdateClass fuel w fiber update lane rp).1.updateInsideUpdateWarnings
          = w.updateInsideUpdateWarnings
      ∧ (enqueueUpdateClass fuel w fiber update lane rp).1.didWarnUpdateInsideUpdate = true)
    ∧ (w.didWarnUpdateInsideUpdate = false →
      ((enqueueUpdateClass fuel w fiber update lane rp).1.updateInsideUpdateWarnings
          = w.updateInsideUpdateWarnings
        ∧ (enqueueUpdateClass fuel w fiber update lane rp).1.didWarnUpdateInsideUpdate = false)
      ∨ ((enqueueUpdateClass fuel w fiber update lane rp).1.updateInsideUpdateWarnings
          = w.updateInsideUpdateWarnings + 1
        ∧ (enqueueUpdateClass fuel w fiber update lane rp).1.didWarnUpdateInsideUpdate = true)) := by
  unfold enqueueUpdateClass
  cases hq : (w.fibers fiber).updateQueue with
  | none =>
    dsimp only
    exact ⟨fun ht => ⟨rfl, ht⟩, fun hf => Or.inl ⟨rfl, hf⟩⟩
  | some sharedQueue =>
    dsimp only
    by_cases hcond : w.currentlyProcessingQueue = some sharedQueue
        ∧ w.didWarnUpdateInsideUpdate = false
    · rw [if_pos hcond]
      constructor
      · intro htrue
        exact absurd (hcond.2.symm.trans htrue) Bool.false_ne_true
      · intro _
        refine Or.inr ?_
        cases rp with
        | true =>
          rw [if_pos rfl]
          obtain ⟨r1, r2⟩ := renderPhaseBranch_dev fuel
            { w with updateInsideUpdateWarnings := w.updateInsideUpdateWarnings + 1,
                     didWarnUpdateInsideUpdate := true } sharedQueue update fiber lane
          exact ⟨r1, r2⟩
        | false =>
          rw [if_neg Bool.false_ne_true]
          obtain ⟨e1, e2, e3, e4⟩ := enqueueConcurrentClassUpdate_dev fuel
            { w with updateInsideUpdateWarnings := w.updateInsideUpdateWarnings + 1,
                     didWarnUpdateInsideUpdate := true } fiber sharedQueue update lane
          exact ⟨e1, e2⟩
    · rw [if_neg hcond]
      cases rp with
      | true =>
        rw [if_pos rfl]
        obtain ⟨r1, r2⟩ := renderPhaseBranch_dev fuel w sharedQueue update fiber lane
        exact ⟨fun ht => ⟨r1, r2.trans ht⟩, fun hf => Or.inl ⟨r1, r2.trans hf⟩⟩
      | false =>
        rw [if_neg Bool.false_ne_true]
        obtain ⟨e1, e2, e3, e4⟩ :=
          enqueueConcurrentClassUpdate_dev fuel w fiber sharedQueue update lane
        exact ⟨fun ht => ⟨e1, e2.trans ht⟩, fun hf => Or.inl ⟨e1, e2.trans hf⟩⟩

/-- Run a sequence of class enqueues `(fiber, update, lane, renderPhase)`. -/
def applyEnqueueCalls (fuel : ℕ) (w : EnqWorld) (calls : List (ℕ × ℕ × Lanes × Bool)) : EnqWorld :=
  calls.foldl (fun w c => (enqueueUpdateClass fuel w c.1 c.2.1 c.2.2.1 c.2.2.2).1) w

/-- Once the warning flag is set, no enqueue sequence ever emits another
update-inside-update warning. -/
theorem applyEnqueueCalls_warned (fuel : ℕ) (calls : List (ℕ × ℕ × Lanes × Bool)) :
    ∀ w : EnqWorld, w.didWarnUpdateInsideUpdate = true →
      (applyEnqueueCalls fuel w calls).updateInsideUpdateWarnings = w.updateInsideUpdateWarnings
      ∧ (applyEnqueueCalls fuel w calls).didWarnUpdateInsideUpdate = true := by
  induction calls with
  | nil => exact fun w hw => ⟨rfl, hw⟩
  | cons c cs ih =>
    intro w hw
    obtain ⟨p1, p2⟩ := (enqueueUpdateClass_warnings fuel w c.1 c.2.1 c.2.2.1 c.2.2.2).1 hw
    obtain ⟨q1, q2⟩ := ih (enqueueUpdateClass fuel w c.1 c.2.1 c.2.2.1 c.2.2.2).1 p2
    exact ⟨q1.trans p1, q2⟩

/-- C9: when the class enqueue runs while its shared queue is the one
currently being processed (`currentlyProcessingQueue` matches) and the
once-per-lifetime flag is clear, exactly one warning is emitted, no
exception is raised, the update is still staged as usual, and no further
enqueue — whatever its arguments — ever emits that warning again. -/
theorem enqueueUpdateClass_warn_once (fuel : ℕ) (w : EnqWorld) (fiber update q : ℕ)
    (lane : Lanes) (calls : List (ℕ × ℕ × Lanes × Bool))
    (hq : (w.fibers fiber).updateQueue = some q)
    (hcur : w.currentlyProcessingQueue = some q)
    (hwarn : w.didWarnUpdateInsideUpdate = false) :
    (enqueueUpdateClass fuel w fiber update lane false).1.updateInsideUpdateWarnings
        = w.updateInsideUpdateWarnings + 1
    ∧ (enqueueUpdateClass fuel w fiber update lane false).1.didWarnUpdateInsideUpdate = true
    ∧ (enqueueUpdateClass fuel w fiber update lane false).1.concurrentQueues
        = w.concurrentQueues ++ [(⟨fiber, some q, some update, lane⟩ : Staged)]
    ∧ (applyEnqueueCalls fuel (enqueueUpdateClass fuel w fiber update lane false).1
        calls).updateInsideUpdateWarnings = w.updateInsideUpdateWarnings + 1 := by
  have hcond : w.currentlyProcessingQueue = some q ∧ w.didWarnUpdateInsideUpdate = false :=
    ⟨hcur, hwarn⟩
  have hstep : enqueueUpdateClass fuel w fiber update lane false
      = enqueueConcurrentClassUpdate fuel
          { w with updateInsideUpdateWarnings := w.updateInsideUpdateWarnings + 1,
                   didWarnUpdateInsideUpdate := true } fiber q update lane := by
    unfold enqueueUpdateClass
    rw [hq]
    dsimp only
    rw [if_pos hcond, if_neg Bool.false_ne_true]
  obtain ⟨e1, e2, e3, e4⟩ := enqueueConcurrentClassUpdate_dev fuel
    { w with updateInsideUpdateWarnings := w.updateInsideUpdateWarnings + 1,
             didWarnUpdateInsideUpdate := true } fiber q update lane
  rw [hstep]
  obtain ⟨a1, a2⟩ := applyEnqueueCalls_warned fuel calls
    (enqueueConcurrentClassUpdate fuel
      { w with updateInsideUpdateWarnings := w.updateInsideUpdateWarnings + 1,
               didWarnUpdateInsideUpdate := true } fiber q update lane).1 e2
  exact ⟨e1, e2, e3, a1.trans e1⟩

/-- A mounted fiber whose update queue is shared queue 0, for witnesses. -/
def mountedFiber : FiberN :=
  { tag := 1, lanes := NoLanes, childLanes := NoLanes, ret := none, alternate := none,
    flags := NoFlags, updateQueue := some 0, isHidden := false, stateNodeRoot := 0 }

/-- A world in which shared queue 0 is currently being processed. -/
def processingWorld : EnqWorld :=
  { baseWorld with fibers := fun _ => mountedFiber, currentlyProcessingQueue := some 0 }

/-- Witness for C9: a concrete re-entrant enqueue emits one warning,
stages its update, and a follow-up enqueue emits none. -/
theorem enqueueUpdateClass_warn_once_witness :
    (processingWorld.fibers 0).updateQueue = some 0
    ∧ processingWorld.currentlyProcessingQueue = some 0
    ∧ processingWorld.didWarnUpdateInsideUpdate = false
    ∧ ((enqueueUpdateClass 5 processingWorld 0 7 P1 false).1.updateInsideUpdateWarnings
          = processingWorld.updateInsideUpdateWarnings + 1
      ∧ (enqueueUpdateClass 5 processingWorld 0 7 P1 false).1.didWarnUpdateInsideUpdate = true
      ∧ (enqueueUpdateClass 5 processingWorld 0 7 P1 false).1.concurrentQueues
          = processingWorld.concurrentQueues ++ [(⟨0, some 0, some 7, P1⟩ : Staged)]
      ∧ (applyEnqueueCalls 5 (enqueueUpdateClass 5 processingWorld 0 7 P1 false).1
          [(0, 8, P1, false)]).updateInsideUpdateWarnings
          = processingWorld.updateInsideUpdateWarnings + 1) :=
  ⟨rfl, rfl, rfl,
    enqueueUpdateClass_warn_once 5 processingWorld 0 7 0 P1 [(0, 8, P1, false)] rfl rfl rfl⟩

/-- Processing one staged tuple with non-null queue and update performs
exactly the circular-list insertion on the update and queue heaps (the lane
marking touches only fibers and roots). -/
theorem processStagedEntry_shape (fuel : ℕ) (w : EnqWorld) (f q u : ℕ) (lane : Lanes) :
    ∃ fb ro,
      processStagedEntry fuel w ⟨f, some q, some u, lane⟩ =
        { w with updates := (circularPush w.updates w.queues q u).1,
                 queues := (circularPush w.updates w.queues q u).2,
                 fibers := fb, roots := ro } := by
  unfold processStagedEntry
  dsimp only
  by_cases hl : lane ≠ NoLane
  · rw [if_pos hl]
    exact ⟨_, _, rfl⟩
  · rw [if_neg hl]
    exact ⟨w.fibers, w.roots, rfl⟩

/-- Flushing three staged tuples against one queue with an empty pending
list links them into the circular list in arrival order. -/
theorem flushThree (fuel : ℕ) (w0 : EnqWorld) (n q r1 r2 r3 : ℕ) (lane1 lane2 : Lanes)
    (hp : (w0.queues q).pending = none)
    (h12 : r1 ≠ r2) (h13 : r1 ≠ r3) (h23 : r2 ≠ r3) :
    (([(⟨n, some q, some r1, lane1⟩ : Staged), ⟨n, some q, some r2, lane1⟩,
        ⟨n, some q, some r3, lane2⟩].foldl (processStagedEntry fuel) w0).queues q).pending
        = some r3
    ∧ (([(⟨n, some q, some r1, lane1⟩ : Staged), ⟨n, some q, some r2, lane1⟩,
        ⟨n, some q, some r3, lane2⟩].foldl (processStagedEntry fuel) w0).updates r1).next
        = some r2
    ∧ (([(⟨n, some q, some r1, lane1⟩ : Staged), ⟨n, some q, some r2, lane1⟩,
        ⟨n, some q, some r3, lane2⟩].foldl (processStagedEntry fuel) w0).updates r2).next
        = some r3
    ∧ (([(⟨n, some q, some r1, lane1⟩ : Staged), ⟨n, some q, some r2, lane1⟩,
        ⟨n, some q, some r3, lane2⟩].foldl (processStagedEntry fuel) w0).updates r3).next
        = some r1
    ∧ ([(⟨n, some q, some r1, lane1⟩ : Staged), ⟨n, some q, some r2, lane1⟩,
        ⟨n, some q, some r3, lane2⟩].foldl (processStagedEntry fuel) w0).concurrentQueues
        = w0.concurrentQueues := by
  obtain ⟨fb1, ro1, he1⟩ := processStagedEntry_shape fuel w0 n q r1 lane1
  simp only [List.foldl_cons, List.foldl_nil, he1]
  obtain ⟨fb2, ro2, he2⟩ := processStagedEntry_shape fuel
    { w0 with updates := (circularPush w0.updates w0.queues q r1).1,
              queues := (circularPush w0.updates w0.queues q r1).2,
              fibers := fb1, roots := ro1 } n q r2 lane1
  simp only [he2]
  obtain ⟨fb3, ro3, he3⟩ := processStagedEntry_shape fuel
    { w0 with updates := (circularPush
        { w0 with updates := (circularPush w0.updates w0.queues q r1).1,
                  queues := (circularPush w0.updates w0.queues q r1).2,
                  fibers := fb1, roots := ro1 }.updates
        { w0 with updates := (circularPush w0.updates w0.queues q r1).1,
                  queues := (circularPush w0.updates w0.queues q r1).2,
                  fibers := fb1, roots := ro1 }.queues q r2).1,
              queues := (circularPush
        { w0 with updates := (circularPush w0.updates w0.queues q r1).1,
                  queues := (circularPush w0.updates w0.queues q r1).2,
                  fibers := fb1, roots := ro1 }.updates
        { w0 with updates := (circularPush w0.updates w0.queues q r1).1,
                  queues := (circularPush w0.updates w0.queues q r1).2,
                  fibers := fb1, roots := ro1 }.queues q r2).2,
              fibers := fb2, roots := ro2 } n q r3 lane2
  simp only [he3]
  simp only [circularPush, setUpdNext, setQueuePending, hset, hp]
  simp [hset, h12, h13, h23, Ne.symm h12, Ne.symm h13, Ne.symm h23]

/-- C4: the staging buffer preserves arrival order — staging
`(n, q, r1, P1), (n, q, r2, P1), (n, q, r3, P2)` against the same queue `q`
with an empty pending list records the tuples in that order, and flushing
leaves `q.pending` pointing at `r3` with the circular pending list ordered
`r1 → r2 → r3 → r1`, clearing the buffer. -/
theorem finishQueueing_flush_order (fuel : ℕ) (w : EnqWorld) (n q r1 r2 r3 : ℕ)
    (lane1 lane2 : Lanes)
    (hq0 : w.concurrentQueues = [])
    (hp : (w.queues q).pending = none)
    (h12 : r1 ≠ r2) (h13 : r1 ≠ r3) (h23 : r2 ≠ r3) :
    (enqueueUpdateStaged (enqueueUpdateStaged (enqueueUpdateStaged w n (some q) (some r1) lane1)
        n (some q) (some r2) lane1) n (some q) (some r3) lane2).concurrentQueues
      = [⟨n, some q, some r1, lane1⟩, ⟨n, some q, some r2, lane1⟩, ⟨n, some q, some r3, lane2⟩]
    ∧ ((finishQueueingConcurrentUpdates fuel
        (enqueueUpdateStaged (enqueueUpdateStaged (enqueueUpdateStaged w n (some q) (some r1) lane1)
          n (some q) (some r2) lane1) n (some q) (some r3) lane2)).queues q).pending = some r3
    ∧ ((finishQueueingConcurrentUpdates fuel
        (enqueueUpdateStaged (enqueueUpdateStaged (enqueueUpdateStaged w n (some q) (some r1) lane1)
          n (some q) (some r2) lane1) n (some q) (some r3) lane2)).updates r1).next = some r2
    ∧ ((finishQueueingConcurrentUpdates fuel
        (enqueueUpdateStaged (enqueueUpdateStaged (enqueueUpdateStaged w n (some q) (some r1) lane1)
          n (some q) (some r2) lane1) n (some q) (some r3) lane2)).updates r2).next = some r3
    ∧ ((finishQueueingConcurrentUpdates fuel
        (enqueueUpdateStaged (enqueueUpdateStaged (enqueueUpdateStaged w n (some q) (some r1) lane1)
          n (some q) (some r2) lane1) n (some q) (some r3) lane2)).updates r3).next = some r1
    ∧ (finishQueueingConcurrentUpdates fuel
        (enqueueUpdateStaged (enqueueUpdateStaged (enqueueUpdateStaged w n (some q) (some r1) lane1)
          n (some q) (some r2) lane1) n (some q) (some r3) lane2)).concurrentQueues = [] := by
  obtain ⟨sa1, sa2, sa3, sa4, sa5, sa6, sa7⟩ :=
    enqueueUpdateStaged_shape w n (some q) (some r1) lane1
  obtain ⟨sb1, sb2, sb3, sb4, sb5, sb6, sb7⟩ :=
    enqueueUpdateStaged_shape (enqueueUpdateStaged w n (some q) (some r1) lane1)
      n (some q) (some r2) lane1
  obtain ⟨sc1, sc2, sc3, sc4, sc5, sc6, sc7⟩ :=
    enqueueUpdateStaged_shape
      (enqueueUpdateStaged (enqueueUpdateStaged w n (some q) (some r1) lane1)
        n (some q) (some r2) lane1) n (some q) (some r3) lane2
  have hcq3 : (enqueueUpdateStaged (enqueueUpdateStaged (enqueueUpdateStaged w n (some q)
      (some r1) lane1) n (some q) (some r2) lane1) n (some q) (some r3) lane2).concurrentQueues
      = [⟨n, some q, some r1, lane1⟩, ⟨n, some q, some r2, lane1⟩, ⟨n, some q, some r3, lane2⟩] := by
    rw [sc1, sb1, sa1, hq0]
    rfl
  have hq3 : (enqueueUpdateStaged (enqueueUpdateStaged (enqueueUpdateStaged w n (some q)
      (some r1) lane1) n (some q) (some r2) lane1) n (some q) (some r3) lane2).queues = w.queues :=
    sc3.trans (sb3.trans sa3)
  refine ⟨hcq3, ?_⟩
  unfold finishQueueingConcurrentUpdates
  rw [hcq3]
  dsimp only
  have hp0 : (({ enqueueUpdateStaged (enqueueUpdateStaged (enqueueUpdateStaged w n (some q)
      (some r1) lane1) n (some q) (some r2) lane1) n (some q) (some r3) lane2 with
        concurrentQueues := ([] : List Staged),
        concurrentlyUpdatedLanes := NoLanes } : EnqWorld).queues q).pending = none := by
    dsimp only
    rw [hq3]
    exact hp
  obtain ⟨f1, f2, f3, f4, f5⟩ := flushThree fuel
    ({ enqueueUpdateStaged (enqueueUpdateStaged (enqueueUpdateStaged w n (some q)
      (some r1) lane1) n (some q) (some r2) lane1) n (some q) (some r3) lane2 with
        concurrentQueues := ([] : List Staged),
        concurrentlyUpdatedLanes := NoLanes } : EnqWorld)
    n q r1 r2 r3 lane1 lane2 hp0 h12 h13 h23
  exact ⟨f1, f2, f3, f4, f5⟩

/-- Witness for C4: the flush-order theorem at a concrete world with
records 1, 2, 3 against queue 0. -/
theorem finishQueueing_flush_order_witness :
    baseWorld.concurrentQueues = []
    ∧ (baseWorld.queues 0).pending = none
    ∧ (1 : ℕ) ≠ 2 ∧ (1 : ℕ) ≠ 3 ∧ (2 : ℕ) ≠ 3
    ∧ ((finishQueueingConcurrentUpdates 5
        (enqueueUpdateStaged (enqueueUpdateStaged (enqueueUpdateStaged baseWorld 0 (some 0) (some 1) P1)
          0 (some 0) (some 2) P1) 0 (some 0) (some 3) P2)).queues 0).pending = some 3
    ∧ ((finishQueueingConcurrentUpdates 5
        (enqueueUpdateStaged (enqueueUpdateStaged (enqueueUpdateStaged baseWorld 0 (some 0) (some 1) P1)
          0 (some 0) (some 2) P1) 0 (some 0) (some 3) P2)).updates 1).next = some 2
    ∧ ((finishQueueingConcurrentUpdates 5
        (enqueueUpdateStaged (enqueueUpdateStaged (enqueueUpdateStaged baseWorld 0 (some 0) (some 1) P1)
          0 (some 0) (some 2) P1) 0 (some 0) (some 3) P2)).updates 2).next = some 3
    ∧ ((finishQueueingConcurrentUpdates 5
        (enqueueUpdateStaged (enqueueUpdateStaged (enqueueUpdateStaged baseWorld 0 (some 0) (some 1) P1)
          0 (some 0) (some 2) P1) 0 (some 0) (some 3) P2)).updates 3).next = some 1 := by
  have h := finishQueueing_flush_order 5 baseWorld 0 0 1 2 3 P1 P2 rfl rfl
    (by decide) (by decide) (by decide)
  exact ⟨rfl, rfl, by decide, by decide, by decide, h.2.1, h.2.2.1, h.2.2.2.1, h.2.2.2.2.1⟩

/-- The lane-erased shape of a fiber: all fields except `lanes` and
`childLanes`.  Two fibers with equal shapes agree on tag, return pointer,
alternate, visibility and state-node reference. -/
def fiberShape (f : FiberN) : FiberN :=
  { f with childLanes := NoLanes, lanes := NoLanes }

/-- Equal shapes give equal return pointers. -/
theorem fiberShape_ret {f g : FiberN} (h : fiberShape f = fiberShape g) : f.ret = g.ret := by
  simpa [fiberShape] using congrArg FiberN.ret h

/-- Equal shapes give equal alternates. -/
theorem fiberShape_alternate {f g : FiberN} (h : fiberShape f = fiberShape g) :
    f.alternate = g.alternate := by
  simpa [fiberShape] using congrArg FiberN.alternate h

/-- Equal shapes give equal tags. -/
theorem fiberShape_tag {f g : FiberN} (h : fiberShape f = fiberShape g) : f.tag = g.tag := by
  simpa [fiberShape] using congrArg FiberN.tag h

/-- Equal shapes give equal visibility. -/
theorem fiberShape_isHidden {f g : FiberN} (h : fiberShape f = fiberShape g) :
    f.isHidden = g.isHidden := by
  simpa [fiberShape] using congrArg FiberN.isHidden h

/-- Equal shapes give equal state-node references. -/
theorem fiberShape_stateNodeRoot {f g : FiberN} (h : fiberShape f = fiberShape g) :
    f.stateNodeRoot = g.stateNodeRoot := by
  simpa [fiberShape] using congrArg FiberN.stateNodeRoot h

/-- Merging a lane into a fiber's `lanes` preserves every fiber's shape. -/
theorem mergeFiberLanes_shape (h : ℕ → FiberN) (i : ℕ) (lane : Lanes) (id : ℕ) :
    fiberShape (mergeFiberLanes h i lane id) = fiberShape (h id) := by
  unfold mergeFiberLanes hset
  by_cases hid : id = i <;> simp [hid, fiberShape]

/-- Merging a lane into a fiber's `childLanes` preserves every fiber's shape. -/
theorem mergeFiberChildLanes_shape (h : ℕ → FiberN) (i : ℕ) (lane : Lanes) (id : ℕ) :
    fiberShape (mergeFiberChildLanes h i lane id) = fiberShape (h id) := by
  unfold mergeFiberChildLanes hset
  by_cases hid : id = i <;> simp [hid, fiberShape]

/-- Merging into `lanes` leaves every `childLanes` field unchanged. -/
theorem mergeFiberLanes_childLanes (h : ℕ → FiberN) (i : ℕ) (lane : Lanes) (id : ℕ) :
    (mergeFiberLanes h i lane id).childLanes = (h id).childLanes := by
  unfold mergeFiberLanes hset
  by_cases hid : id = i <;> simp [hid]

/-- Merging into `childLanes` leaves every `lanes` field unchanged. -/
theorem mergeFiberChildLanes_lanes (h : ℕ → FiberN) (i : ℕ) (lane : Lanes) (id : ℕ) :
    (mergeFiberChildLanes h i lane id).lanes = (h id).lanes := by
  unfold mergeFiberChildLanes hset
  by_cases hid : id = i <;> simp [hid]

/-- Merging the same lane twice is the same as merging it once. -/
theorem mergeLanes_absorb (x lane : Lanes) :
    mergeLanes (mergeLanes x lane) lane = mergeLanes x lane := by
  simp [mergeLanes, Finset.union_assoc]

/-- After a `childLanes` merge, each fiber's `childLanes` is either unchanged
or has the lane merged in. -/
theorem mergeFiberChildLanes_cl (h : ℕ → FiberN) (i : ℕ) (lane : Lanes) (id : ℕ) :
    (mergeFiberChildLanes h i lane id).childLanes = (h id).childLanes
    ∨ (mergeFiberChildLanes h i lane id).childLanes = mergeLanes (h id).childLanes lane := by
  unfold mergeFiberChildLanes hset
  by_cases hid : id = i
  · subst hid
    simp
  · simp [hid]

/-- The walk loop preserves every fiber's shape. -/
theorem markUpdateLaneLoop_shape (lane : Lanes) :
    ∀ (fuel : ℕ) (h : ℕ → FiberN) (node : ℕ) (ih : Bool) (id : ℕ),
      fiberShape ((markUpdateLaneLoop lane fuel h node ih).1 id) = fiberShape (h id)
  | 0, h, node, ih, id => rfl
  | fuel + 1, h, node, ih, id => by
    unfold markUpdateLaneLoop
    cases hr : (h node).ret with
    | none => rfl
    | some parent =>
      dsimp only
      cases halt : ((mergeFiberChildLanes h parent lane) parent).alternate with
      | none =>
        simp only [halt]
        exact (markUpdateLaneLoop_shape lane fuel _ parent _ id).trans
          (mergeFiberChildLanes_shape h parent lane id)
      | some alt =>
        simp only [halt]
        exact (markUpdateLaneLoop_shape lane fuel _ parent _ id).trans
          ((mergeFiberChildLanes_shape _ alt lane id).trans
            (mergeFiberChildLanes_shape h parent lane id))

/-- The walk loop never touches a `lanes` field. -/
theorem markUpdateLaneLoop_lanes (lane : Lanes) :
    ∀ (fuel : ℕ) (h : ℕ → FiberN) (node : ℕ) (ih : Bool) (id : ℕ),
      ((markUpdateLaneLoop lane fuel h node ih).1 id).lanes = (h id).lanes
  | 0, h, node, ih, id => rfl
  | fuel + 1, h, node, ih, id => by
    unfold markUpdateLaneLoop
    cases hr : (h node).ret with
    | none => rfl
    | some parent =>
      dsimp only
      cases halt : ((mergeFiberChildLanes h parent lane) parent).alternate with
      | none =>
        simp only [halt]
        exact (markUpdateLaneLoop_lanes lane fuel _ parent _ id).trans
          (mergeFiberChildLanes_lanes h parent lane id)
      | some alt =>
        simp only [halt]
        exact (markUpdateLaneLoop_lanes lane fuel _ parent _ id).trans
          ((mergeFiberChildLanes_lanes _ alt lane id).trans
            (mergeFiberChildLanes_lanes h parent lane id))

/-- Composing two unchanged-or-merged steps gives an unchanged-or-merged step. -/
theorem cl_mono_trans {a b c lane : Lanes}
    (hab : b = a ∨ b = mergeLanes a lane) (hbc : c = b ∨ c = mergeLanes b lane) :
    c = a ∨ c = mergeLanes a lane := by
  rcases hab with h1 | h1 <;> rcases hbc with h2 | h2 <;>
    simp [h1, h2, mergeLanes_absorb]

/-- The walk only ever merges the lane into `childLanes` fields (so later
iterations never undo earlier merges, even on aliased heaps). -/
theorem markUpdateLaneLoop_cl_mono (lane : Lanes) :
    ∀ (fuel : ℕ) (h : ℕ → FiberN) (node : ℕ) (ih : Bool) (id : ℕ),
      ((markUpdateLaneLoop lane fuel h node ih).1 id).childLanes = (h id).childLanes
      ∨ ((markUpdateLaneLoop lane fuel h node ih).1 id).childLanes
          = mergeLanes (h id).childLanes lane
  | 0, h, node, ih, id => Or.inl rfl
  | fuel + 1, h, node, ih, id => by
    unfold markUpdateLaneLoop
    cases hr : (h node).ret with
    | none => exact Or.inl rfl
    | some parent =>
      dsimp only
      cases halt : ((mergeFiberChildLanes h parent lane) parent).alternate with
      | none =>
        simp only [halt]
        exact cl_mono_trans (mergeFiberChildLanes_cl h parent lane id)
          (markUpdateLaneLoop_cl_mono lane fuel _ parent _ id)
      | some alt =>
        simp only [halt]
        exact cl_mono_trans
          (cl_mono_trans (mergeFiberChildLanes_cl h parent lane id)
            (mergeFiberChildLanes_cl _ alt lane id))
          (markUpdateLaneLoop_cl_mono lane fuel _ parent _ id)

/-- The ancestor chain only depends on fiber shapes. -/
theorem ancestors_congr {h h' : ℕ → FiberN}
    (hsh : ∀ id, fiberShape (h' id) = fiberShape (h id)) :
    ∀ (fuel : ℕ) (node : ℕ), ancestors h' fuel node = ancestors h fuel node
  | 0, node => rfl
  | fuel + 1, node => by
    unfold ancestors
    rw [fiberShape_ret (hsh node)]
    cases (h node).ret with
    | none => rfl
    | some parent =>
      dsimp only
      rw [ancestors_congr hsh fuel parent]

/-- Hidden-offscreen detection only depends on fiber shapes. -/
theorem anyHiddenOffscreen_congr {h h' : ℕ → FiberN}
    (hsh : ∀ id, fiberShape (h' id) = fiberShape (h id)) (l : List ℕ) :
    anyHiddenOffscreen h' l = anyHiddenOffscreen h l := by
  unfold anyHiddenOffscreen
  induction l with
  | nil => rfl
  | cons a l ih =>
    simp only [List.any_cons, ih]
    unfold hiddenOffscreen
    rw [fiberShape_tag (hsh a), fiberShape_isHidden (hsh a)]

/-- At the merged node, `childLanes` gains the lane. -/
theorem mergeFiberChildLanes_self (h : ℕ → FiberN) (i : ℕ) (lane : Lanes) :
    (mergeFiberChildLanes h i lane i).childLanes = mergeLanes (h i).childLanes lane := by
  unfold mergeFiberChildLanes
  rw [hset_same]

/-- Away from the merged node, a `childLanes` merge changes nothing. -/
theorem mergeFiberChildLanes_other (h : ℕ → FiberN) (i : ℕ) (lane : Lanes) (j : ℕ)
    (hj : j ≠ i) : mergeFiberChildLanes h i lane j = h j := by
  unfold mergeFiberChildLanes
  exact hset_other _ _ _ _ hj

/-- A merged value stays merged under a further unchanged-or-merged step. -/
theorem cl_closed {x y c lane : Lanes} (hy : y = mergeLanes x lane)
    (hc : c = y ∨ c = mergeLanes y lane) : c = mergeLanes x lane := by
  rcases hc with h | h <;> simp [h, hy, mergeLanes_absorb]

/-- An unchanged-or-merged step followed by a merge is a merge. -/
theorem cl_up {x y c lane : Lanes} (hxy : y = x ∨ y = mergeLanes x lane)
    (hc : c = mergeLanes y lane) : c = mergeLanes x lane := by
  rcases hxy with h | h <;> simp [hc, h, mergeLanes_absorb]

/-- Main walk invariant: every proper ancestor of the start node, and each
such ancestor's alternate, ends the walk with the lane merged into its
`childLanes`. -/
theorem markUpdateLaneLoop_ancestors (lane : Lanes) :
    ∀ (fuel : ℕ) (h : ℕ → FiberN) (node : ℕ) (ih : Bool),
      ∀ a ∈ ancestors h fuel node,
        (((markUpdateLaneLoop lane fuel h node ih).1 a).childLanes
            = mergeLanes (h a).childLanes lane)
        ∧ ∀ b, (h a).alternate = some b →
            (((markUpdateLaneLoop lane fuel h node ih).1 b).childLanes
              = mergeLanes (h b).childLanes lane)
  | 0, h, node, ih => by
    intro a ha
    simp [ancestors] at ha
  | fuel + 1, h, node, ih => by
    intro a ha
    unfold ancestors at ha
    unfold markUpdateLaneLoop
    cases hr : (h node).ret with
    | none =>
      rw [hr] at ha
      simp at ha
    | some parent =>
      rw [hr] at ha
      dsimp only at ha ⊢
      have haltp : ((mergeFiberChildLanes h parent lane) parent).alternate
          = (h parent).alternate :=
        fiberShape_alternate (mergeFiberChildLanes_shape h parent lane parent)
      cases halt : ((mergeFiberChildLanes h parent lane) parent).alternate with
      | none =>
        simp only [halt]
        -- h2 = h1 = mergeFiberChildLanes h parent lane
        have hsh2 : ∀ id, fiberShape ((mergeFiberChildLanes h parent lane) id)
            = fiberShape (h id) := fun id => mergeFiberChildLanes_shape h parent lane id
        have hmono2 : ∀ id, ((mergeFiberChildLanes h parent lane) id).childLanes
            = (h id).childLanes
            ∨ ((mergeFiberChildLanes h parent lane) id).childLanes
                = mergeLanes (h id).childLanes lane :=
          fun id => mergeFiberChildLanes_cl h parent lane id
        have hp2 : ((mergeFiberChildLanes h parent lane) parent).childLanes
            = mergeLanes (h parent).childLanes lane := mergeFiberChildLanes_self h parent lane
        rcases List.mem_cons.mp ha with ha1 | hatail
        · subst ha1
          refine ⟨?_, ?_⟩
          · exact cl_closed hp2 (markUpdateLaneLoop_cl_mono lane fuel _ a _ a)
          · intro b hb
            rw [← haltp, halt] at hb
            exact absurd hb (by simp)
        · have hanc2 : a ∈ ancestors (mergeFiberChildLanes h parent lane) fuel parent := by
            rw [ancestors_congr hsh2]
            exact hatail
          obtain ⟨i1, i2⟩ := markUpdateLaneLoop_ancestors lane fuel
            (mergeFiberChildLanes h parent lane) parent _ a hanc2
          refine ⟨cl_up (hmono2 a) i1, ?_⟩
          intro b hb
          have hb2 : ((mergeFiberChildLanes h parent lane) a).alternate = some b := by
            rw [fiberShape_alternate (hsh2 a)]
            exact hb
          exact cl_up (hmono2 b) (i2 b hb2)
      | some alt =>
        simp only [halt]
        have haltba : (h parent).alternate = some alt := by rw [← haltp, halt]
        have hsh2 : ∀ id, fiberShape
            ((mergeFiberChildLanes (mergeFiberChildLanes h parent lane) alt lane) id)
            = fiberShape (h id) := fun id =>
          (mergeFiberChildLanes_shape _ alt lane id).trans
            (mergeFiberChildLanes_shape h parent lane id)
        have hmono2 : ∀ id,
            ((mergeFiberChildLanes (mergeFiberChildLanes h parent lane) alt lane) id).childLanes
              = (h id).childLanes
            ∨ ((mergeFiberChildLanes (mergeFiberChildLanes h parent lane) alt lane) id).childLanes
              = mergeLanes (h id).childLanes lane := fun id =>
          cl_mono_trans (mergeFiberChildLanes_cl h parent lane id)
            (mergeFiberChildLanes_cl _ alt lane id)
        have hp2 : ((mergeFiberChildLanes (mergeFiberChildLanes h parent lane) alt lane)
            parent).childLanes = mergeLanes (h parent).childLanes lane := by
          by_cases hpa : parent = alt
          · subst hpa
            rw [mergeFiberChildLanes_self]
            rw [mergeFiberChildLanes_self]
            exact mergeLanes_absorb _ _
          · rw [mergeFiberChildLanes_other _ alt lane parent hpa]
            exact mergeFiberChildLanes_self h parent lane
        have halt2 : ((mergeFiberChildLanes (mergeFiberChildLanes h parent lane) alt lane)
            alt).childLanes = mergeLanes (h alt).childLanes lane := by
          rw [mergeFiberChildLanes_self]
          by_cases hap : alt = parent
          · subst hap
            rw [mergeFiberChildLanes_self]
            exact mergeLanes_absorb _ _
          · rw [mergeFiberChildLanes_other h parent lane alt hap]
        rcases List.mem_cons.mp ha with ha1 | hatail
        · subst ha1
          refine ⟨?_, ?_⟩
          · exact cl_closed hp2 (markUpdateLaneLoop_cl_mono lane fuel _ a _ a)
          · intro b hb
            have hba : b = alt := by
              rw [haltba] at hb
              exact (Option.some_inj.mp hb).symm
            subst hba
            exact cl_closed halt2 (markUpdateLaneLoop_cl_mono lane fuel _ a _ b)
        · have hanc2 : a ∈ ancestors
              (mergeFiberChildLanes (mergeFiberChildLanes h parent lane) alt lane)
              fuel parent := by
            rw [ancestors_congr hsh2]
            exact hatail
          obtain ⟨i1, i2⟩ := markUpdateLaneLoop_ancestors lane fuel
            (mergeFiberChildLanes (mergeFiberChildLanes h parent lane) alt lane) parent _ a hanc2
          refine ⟨cl_up (hmono2 a) i1, ?_⟩
          intro b hb
          have hb2 : ((mergeFiberChildLanes (mergeFiberChildLanes h parent lane) alt lane)
              a).alternate = some b := by
            rw [fiberShape_alternate (hsh2 a)]
            exact hb
          exact cl_up (hmono2 b) (i2 b hb2)

/-- Unfolding `getLastD` over a cons cell. -/
theorem getLastD_cons_eq {α : Type} (a d : α) (l : List α) :
    (a :: l).getLastD d = l.getLastD a := by
  cases l <;> simp [List.getLastD]

/-- The walk's boolean accumulator ends as the disjunction of its start value
with the presence of a hidden `OffscreenComponent` among the ancestors, and
its node accumulator ends at the top of the ancestor chain. -/
theorem markUpdateLaneLoop_hidden_top (lane : Lanes) :
    ∀ (fuel : ℕ) (h : ℕ → FiberN) (node : ℕ) (ih : Bool),
      (markUpdateLaneLoop lane fuel h node ih).2.1
          = (ih || anyHiddenOffscreen h (ancestors h fuel node))
      ∧ (markUpdateLaneLoop lane fuel h node ih).2.2 = topNode h fuel node
  | 0, h, node, ih => by
    simp [markUpdateLaneLoop, ancestors, anyHiddenOffscreen, topNode, List.getLastD]
  | fuel + 1, h, node, ih => by
    unfold markUpdateLaneLoop
    cases hr : (h node).ret with
    | none =>
      have ha : ancestors h (fuel + 1) node = [] := by
        unfold ancestors
        rw [hr]
      have ht : topNode h (fuel + 1) node = node := by
        unfold topNode
        rw [ha]
        rfl
      rw [ha, ht]
      dsimp only
      simp [anyHiddenOffscreen]
    | some parent =>
      have ha : ancestors h (fuel + 1) node = parent :: ancestors h fuel parent := by
        conv_lhs => unfold ancestors
        rw [hr]
      have ht : topNode h (fuel + 1) node = (ancestors h fuel parent).getLastD parent := by
        unfold topNode
        rw [ha, getLastD_cons_eq]
      rw [ha, ht]
      dsimp only
      have main : ∀ h2 : ℕ → FiberN, (∀ id, fiberShape (h2 id) = fiberShape (h id)) →
          (markUpdateLaneLoop lane fuel h2 parent
              (if (h2 parent).tag = OffscreenComponent ∧ (h2 parent).isHidden = true then true
               else ih)).2.1
            = (ih || anyHiddenOffscreen h (parent :: ancestors h fuel parent))
          ∧ (markUpdateLaneLoop lane fuel h2 parent
              (if (h2 parent).tag = OffscreenComponent ∧ (h2 parent).isHidden = true then true
               else ih)).2.2
            = (ancestors h fuel parent).getLastD parent := by
        intro h2 hsh2
        obtain ⟨j1, j2⟩ := markUpdateLaneLoop_hidden_top lane fuel h2 parent
          (if (h2 parent).tag = OffscreenComponent ∧ (h2 parent).isHidden = true then true
           else ih)
        have hanc : ancestors h2 fuel parent = ancestors h fuel parent :=
          ancestors_congr hsh2 fuel parent
        have hany : anyHiddenOffscreen h2 (ancestors h2 fuel parent)
            = anyHiddenOffscreen h (ancestors h fuel parent) := by
          rw [hanc]
          exact anyHiddenOffscreen_congr hsh2 _
        have hih2 : (if (h2 parent).tag = OffscreenComponent ∧ (h2 parent).isHidden = true
            then true else ih) = (hiddenOffscreen (h parent) || ih) := by
          unfold hiddenOffscreen
          by_cases hcase : (h2 parent).tag = OffscreenComponent ∧ (h2 parent).isHidden = true
          · rw [if_pos hcase]
            have hcase' : (h parent).tag = OffscreenComponent ∧ (h parent).isHidden = true := by
              rw [← fiberShape_tag (hsh2 parent), ← fiberShape_isHidden (hsh2 parent)]
              exact hcase
            simp [hcase']
          · rw [if_neg hcase]
            have hcase' : ¬ ((h parent).tag = OffscreenComponent
                ∧ (h parent).isHidden = true) := by
              rw [← fiberShape_tag (hsh2 parent), ← fiberShape_isHidden (hsh2 parent)]
              exact hcase
            simp [hcase']
        constructor
        · rw [j1, hany, hih2]
          simp only [anyHiddenOffscreen, List.any_cons]
          cases hiddenOffscreen (h parent) <;> cases ih <;>
            simp [anyHiddenOffscreen]
        · rw [j2]
          unfold topNode
          rw [hanc]
      cases halt : ((mergeFiberChildLanes h parent lane) parent).alternate with
      | none =>
        simp only [halt]
        exact main (mergeFiberChildLanes h parent lane)
          (fun id => mergeFiberChildLanes_shape h parent lane id)
      | some alt =>
        simp only [halt]
        exact main (mergeFiberChildLanes (mergeFiberChildLanes h parent lane) alt lane)
          (fun id => (mergeFiberChildLanes_shape _ alt lane id).trans
            (mergeFiberChildLanes_shape h parent lane id))

/-- At the merged node, `lanes` gains the lane. -/
theorem mergeFiberLanes_self (h : ℕ → FiberN) (i : ℕ) (lane : Lanes) :
    (mergeFiberLanes h i lane i).lanes = mergeLanes (h i).lanes lane := by
  unfold mergeFiberLanes
  rw [hset_same]

/-- Away from the merged node, a `lanes` merge changes nothing. -/
theorem mergeFiberLanes_other (h : ℕ → FiberN) (i : ℕ) (lane : Lanes) (j : ℕ) (hj : j ≠ i) :
    mergeFiberLanes h i lane j = h j := by
  unfold mergeFiberLanes
  exact hset_other _ _ _ _ hj

/-- The top of the return chain only depends on fiber shapes. -/
theorem topNode_congr {h h' : ℕ → FiberN}
    (hsh : ∀ id, fiberShape (h' id) = fiberShape (h id)) (fuel node : ℕ) :
    topNode h' fuel node = topNode h fuel node := by
  unfold topNode
  rw [ancestors_congr hsh]

/-- C5: `markUpdateLaneFromFiberToRoot` (lines 974-1027) merges the update
lane into the source fiber's `lanes` and its alternate's, merges it into the
`childLanes` of every ancestor on the `return` chain and of each ancestor's
alternate, and, when the walk passed a hidden `OffscreenComponent` and ended
at a `HostRoot`, records the deferred update on that root's hidden-update
side table via `markHiddenUpdate`. -/
theorem markUpdateLaneFromFiberToRoot_spec (fuel : ℕ) (h : ℕ → FiberN)
    (roots : ℕ → RootModel) (f : ℕ) (u : Option ℕ) (lane : Lanes)
    (hterm : chainTerminates h fuel f = true) :
    ((markUpdateLaneFromFiberToRoot fuel h roots f u lane).1 f).lanes
        = mergeLanes (h f).lanes lane
    ∧ (∀ b, (h f).alternate = some b →
        ((markUpdateLaneFromFiberToRoot fuel h roots f u lane).1 b).lanes
          = mergeLanes (h b).lanes lane)
    ∧ (∀ a ∈ ancestors h fuel f,
        ((markUpdateLaneFromFiberToRoot fuel h roots f u lane).1 a).childLanes
            = mergeLanes (h a).childLanes lane
        ∧ ∀ b, (h a).alternate = some b →
            ((markUpdateLaneFromFiberToRoot fuel h roots f u lane).1 b).childLanes
              = mergeLanes (h b).childLanes lane)
    ∧ (∀ uid, u = some uid →
        anyHiddenOffscreen h (ancestors h fuel f) = true →
        (h (topNode h fuel f)).tag = HostRoot →
        (markUpdateLaneFromFiberToRoot fuel h roots f u lane).2
          = hset roots ((h (topNode h fuel f)).stateNodeRoot)
              (markHiddenUpdate (roots ((h (topNode h fuel f)).stateNodeRoot)) uid lane)) := by
  have haltf : ((mergeFiberLanes h f lane) f).alternate = (h f).alternate :=
    fiberShape_alternate (mergeFiberLanes_shape h f lane f)
  -- the four facts about the heap after the initial lane merges
  have hfacts :
      (∀ id, fiberShape ((match ((mergeFiberLanes h f lane) f).alternate with
          | some alt => mergeFiberLanes (mergeFiberLanes h f lane) alt lane
          | none => mergeFiberLanes h f lane) id) = fiberShape (h id))
      ∧ (∀ id, ((match ((mergeFiberLanes h f lane) f).alternate with
          | some alt => mergeFiberLanes (mergeFiberLanes h f lane) alt lane
          | none => mergeFiberLanes h f lane) id).childLanes = (h id).childLanes)
      ∧ (((match ((mergeFiberLanes h f lane) f).alternate with
          | some alt => mergeFiberLanes (mergeFiberLanes h f lane) alt lane
          | none => mergeFiberLanes h f lane) f).lanes = mergeLanes (h f).lanes lane)
      ∧ (∀ b, (h f).alternate = some b →
          ((match ((mergeFiberLanes h f lane) f).alternate with
          | some alt => mergeFiberLanes (mergeFiberLanes h f lane) alt lane
          | none => mergeFiberLanes h f lane) b).lanes = mergeLanes (h b).lanes lane) := by
    rw [haltf]
    cases halt : (h f).alternate with
    | none =>
      dsimp only
      refine ⟨fun id => mergeFiberLanes_shape h f lane id, ?_, ?_, ?_⟩
      · intro id
        exact mergeFiberLanes_childLanes h f lane id
      · exact mergeFiberLanes_self h f lane
      · intro b hb
        exact absurd hb (by simp)
    | some alt =>
      dsimp only
      refine ⟨?_, ?_, ?_, ?_⟩
      · intro id
        exact (mergeFiberLanes_shape _ alt lane id).trans (mergeFiberLanes_shape h f lane id)
      · intro id
        exact (mergeFiberLanes_childLanes _ alt lane id).trans
          (mergeFiberLanes_childLanes h f lane id)
      · by_cases hfa : f = alt
        · subst hfa
          rw [mergeFiberLanes_self, mergeFiberLanes_self]
          exact mergeLanes_absorb _ _
        · rw [mergeFiberLanes_other _ alt lane f hfa]
          exact mergeFiberLanes_self h f lane
      · intro b hb
        have hba : b = alt := (Option.some_inj.mp hb).symm
        subst hba
        rw [mergeFiberLanes_self]
        by_cases hbf : b = f
        · subst hbf
          rw [mergeFiberLanes_self]
          exact mergeLanes_absorb _ _
        · rw [mergeFiberLanes_other h f lane b hbf]
  obtain ⟨hsh, hcl, hlf, hlb⟩ := hfacts
  have hfst : (markUpdateLaneFromFiberToRoot fuel h roots f u lane).1
      = (markUpdateLaneLoop lane fuel
          (match ((mergeFiberLanes h f lane) f).alternate with
           | some alt => mergeFiberLanes (mergeFiberLanes h f lane) alt lane
           | none => mergeFiberLanes h f lane) f false).1 := by
    unfold markUpdateLaneFromFiberToRoot
    cases u with
    | none => rfl
    | some upd =>
      dsimp only
      split_ifs <;> rfl
  refine ⟨?_, ?_, ?_, ?_⟩
  · rw [hfst, markUpdateLaneLoop_lanes, hlf]
  · intro b hb
    rw [hfst, markUpdateLaneLoop_lanes, hlb b hb]
  · intro a ha
    have ha1 : a ∈ ancestors (match ((mergeFiberLanes h f lane) f).alternate with
        | some alt => mergeFiberLanes (mergeFiberLanes h f lane) alt lane
        | none => mergeFiberLanes h f lane) fuel f := by
      rw [ancestors_congr hsh]
      exact ha
    obtain ⟨i1, i2⟩ := markUpdateLaneLoop_ancestors lane fuel _ f false a ha1
    refine ⟨?_, ?_⟩
    · rw [hfst, i1, hcl]
    · intro b hb
      have hb1 : ((match ((mergeFiberLanes h f lane) f).alternate with
          | some alt => mergeFiberLanes (mergeFiberLanes h f lane) alt lane
          | none => mergeFiberLanes h f lane) a).alternate = some b := by
        rw [fiberShape_alternate (hsh a)]
        exact hb
      rw [hfst, i2 b hb1, hcl]
  · intro uid hu hany htag
    subst hu
    obtain ⟨w1, w2⟩ := markUpdateLaneLoop_hidden_top lane fuel
      (match ((mergeFiberLanes h f lane) f).alternate with
       | some alt => mergeFiberLanes (mergeFiberLanes h f lane) alt lane
       | none => mergeFiberLanes h f lane) f false
    have hhid : (markUpdateLaneLoop lane fuel
        (match ((mergeFiberLanes h f lane) f).alternate with
         | some alt => mergeFiberLanes (mergeFiberLanes h f lane) alt lane
         | none => mergeFiberLanes h f lane) f false).2.1 = true := by
      rw [w1, ancestors_congr hsh, anyHiddenOffscreen_congr hsh, hany]
      rfl
    have htop : (markUpdateLaneLoop lane fuel
        (match ((mergeFiberLanes h f lane) f).alternate with
         | some alt => mergeFiberLanes (mergeFiberLanes h f lane) alt lane
         | none => mergeFiberLanes h f lane) f false).2.2 = topNode h fuel f := by
      rw [w2, topNode_congr hsh]
    have hshloop : ∀ id, fiberShape ((markUpdateLaneLoop lane fuel
        (match ((mergeFiberLanes h f lane) f).alternate with
         | some alt => mergeFiberLanes (mergeFiberLanes h f lane) alt lane
         | none => mergeFiberLanes h f lane) f false).1 id) = fiberShape (h id) :=
      fun id => (markUpdateLaneLoop_shape lane fuel _ f false id).trans (hsh id)
    unfold markUpdateLaneFromFiberToRoot
    dsimp only
    rw [if_pos ?guard]
    case guard =>
      constructor
      · exact hhid
      · rw [htop, fiberShape_tag (hshloop (topNode h fuel f))]
        exact htag
    rw [htop, fiberShape_stateNodeRoot (hshloop (topNode h fuel f))]

/-- A three-fiber heap: fiber 0 returns to a hidden `OffscreenComponent`
(fiber 1), which returns to a `HostRoot` (fiber 2) whose state node is
root 9. -/
def c5heap : ℕ → FiberN := fun i =>
  if i = 0 then ⟨1, ∅, ∅, some 1, none, ∅, none, false, 0⟩
  else if i = 1 then ⟨OffscreenComponent, ∅, ∅, some 2, none, ∅, none, true, 0⟩
  else ⟨HostRoot, ∅, ∅, none, none, ∅, none, false, 9⟩

/-- An initial root table with no pending lanes and no hidden updates. -/
def c5roots : ℕ → RootModel := fun _ => ⟨∅, []⟩

/-- Witness for C5: on the concrete three-fiber heap the return chain
terminates within the fuel, the source fiber's lanes gain the lane, and the
hidden update `(P1, 7)` is recorded on root 9. -/
theorem markUpdateLaneFromFiberToRoot_spec_witness :
    chainTerminates c5heap 5 0 = true
    ∧ ((markUpdateLaneFromFiberToRoot 5 c5heap c5roots 0 (some 7) P1).1 0).lanes
        = mergeLanes (c5heap 0).lanes P1
    ∧ (markUpdateLaneFromFiberToRoot 5 c5heap c5roots 0 (some 7) P1).2
        = hset c5roots ((c5heap (topNode c5heap 5 0)).stateNodeRoot)
            (markHiddenUpdate (c5roots ((c5heap (topNode c5heap 5 0)).stateNodeRoot)) 7 P1) := by
  obtain ⟨m1, m2, m3, m4⟩ :=
    markUpdateLaneFromFiberToRoot_spec 5 c5heap c5roots 0 (some 7) P1 rfl
  exact ⟨rfl, m1, m4 7 rfl rfl rfl⟩
